import Mathlib

/-
Verification of the StellarSplit bill-splitting core: the split calculation
service and its validator, embedded shallowly over exact rational arithmetic.
Monetary values are modelled as rationals; the JavaScript helper Math.round
(ties toward positive infinity) is modelled exactly on rationals.
-/

set_option maxHeartbeats 1000000

namespace StellarSplit

/-- Split types supported by the application (from calculate-split.dto.ts). -/
inductive SplitType where
  | equal
  | itemized
  | percentage
  | custom
deriving DecidableEq

/-- Tip distribution methods (from calculate-split.dto.ts). -/
inductive TipDistributionType where
  | equal
  | proportional
deriving DecidableEq

/-- An individual item in an itemized split. -/
structure ItemDto where
  name : String
  price : ℚ
  participantIds : List String
deriving DecidableEq

/-- Percentage split configuration entry. -/
structure PercentageSplitDto where
  participantId : String
  percentage : ℚ
deriving DecidableEq

/-- Custom split configuration entry. -/
structure CustomSplitDto where
  participantId : String
  amount : ℚ
deriving DecidableEq

/-- The split calculation request.  Optional fields of the TypeScript DTO are
modelled with `Option`. -/
structure CalculateSplitDto where
  splitType : SplitType
  subtotal : ℚ
  tax : Option ℚ
  tip : Option ℚ
  tipDistribution : Option TipDistributionType
  participantIds : List String
  items : Option (List ItemDto)
  percentages : Option (List PercentageSplitDto)
  customAmounts : Option (List CustomSplitDto)
deriving DecidableEq

/-- One participant share of the response.  The `items` field is set only for
itemized splits. -/
structure ParticipantShareDto where
  participantId : String
  subtotal : ℚ
  tax : ℚ
  tip : ℚ
  total : ℚ
  items : Option (List String)
deriving DecidableEq

/-- The split calculation response. -/
structure SplitCalculationResultDto where
  splitType : SplitType
  originalSubtotal : ℚ
  originalTax : ℚ
  originalTip : ℚ
  grandTotal : ℚ
  shares : List ParticipantShareDto
  roundingAdjustment : ℚ
deriving DecidableEq

/-- Association-list rendering of a JavaScript `Map` keyed by strings: lookup
returns the value stored for the key, if any. -/
def mapGet {α : Type} : List (String × α) → String → Option α
  | [], _ => none
  | (k', v) :: rest, k => if k' = k then some v else mapGet rest k

/-- `Map.set`: overwrite the entry in place if the key is present, append a new
entry otherwise (JavaScript `Map` preserves insertion order). -/
def mapSet {α : Type} : List (String × α) → String → α → List (String × α)
  | [], k, v => [(k, v)]
  | (k', v') :: rest, k, v =>
    if k' = k then (k, v) :: rest else (k', v') :: mapSet rest k v

/-- `Map.has`: whether the key is present. -/
def mapHas {α : Type} (m : List (String × α)) (k : String) : Bool :=
  (mapGet m k).isSome

/-- Whether an optional rational is present and negative (the validator checks
`dto.tax !== undefined && dto.tax < 0`). -/
def optNeg : Option ℚ → Bool
  | some v => decide (v < 0)
  | none => false

namespace SplitValidator

/-- Basic requirements common to all split types
(SplitValidator.validateBasicRequirements). -/
def validateBasicRequirements (dto : CalculateSplitDto) : Except String Unit :=
  if dto.participantIds.length = 0 then
    .error "At least one participant is required"
  else if dto.participantIds.dedup.length ≠ dto.participantIds.length then
    .error "Duplicate participant IDs are not allowed"
  else if dto.subtotal < 0 then
    .error "Subtotal cannot be negative"
  else if optNeg dto.tax then
    .error "Tax cannot be negative"
  else if optNeg dto.tip then
    .error "Tip cannot be negative"
  else if dto.subtotal + dto.tax.getD 0 + dto.tip.getD 0 ≤ 0 ∧
      0 < dto.participantIds.length then
    .error "Total amount must be greater than zero"
  else
    .ok ()

/-- Equal split validation: no strategy payload may be present
(SplitValidator.validateEqualSplit). -/
def validateEqualSplit (dto : CalculateSplitDto) : Except String Unit :=
  if dto.items.isSome ∨ dto.percentages.isSome ∨ dto.customAmounts.isSome then
    .error "Equal split should not include items, percentages, or custom amounts"
  else
    .ok ()

/-- Per-item checks of the itemized validator, in source order. -/
def validateItem (participantIds : List String) (item : ItemDto) :
    Except String Unit :=
  if item.name.trim = "" then
    .error "Item must have a name"
  else if item.price < 0 then
    .error "Item has invalid price"
  else if item.participantIds.length = 0 then
    .error "Item must have at least one participant"
  else if ∃ pid ∈ item.participantIds, pid ∉ participantIds then
    .error "Item has participant who is not in the main participant list"
  else if item.participantIds.dedup.length ≠ item.participantIds.length then
    .error "Item has duplicate participants"
  else
    .ok ()

/-- The `items.forEach` loop of the itemized validator: first failing item
aborts. -/
def validateItems (participantIds : List String) :
    List ItemDto → Except String Unit
  | [] => .ok ()
  | item :: rest =>
    match validateItem participantIds item with
    | .error e => .error e
    | .ok _ => validateItems participantIds rest

/-- Itemized split validation (SplitValidator.validateItemizedSplit). -/
def validateItemizedSplit (dto : CalculateSplitDto) : Except String Unit :=
  match dto.items with
  | none => .error "Itemized split requires at least one item"
  | some items =>
    if items.length = 0 then
      .error "Itemized split requires at least one item"
    else if dto.percentages.isSome ∨ dto.customAmounts.isSome then
      .error "Itemized split should not include percentages or custom amounts"
    else
      match validateItems dto.participantIds items with
      | .error e => .error e
      | .ok _ =>
        if 1/100 < |(items.map (fun item => item.price)).sum - dto.subtotal| then
          .error "Sum of item prices does not match subtotal"
        else
          .ok ()

/-- The `dto.percentages.forEach` loop: membership, duplicate and range checks
per entry, accumulating the percentage map. -/
def checkPercentageEntries (participantIds : List String) :
    List PercentageSplitDto → List (String × ℚ) →
    Except String (List (String × ℚ))
  | [], m => .ok m
  | pct :: rest, m =>
    if pct.participantId ∉ participantIds then
      .error "Percentage split includes participant who is not in the main participant list"
    else if mapHas m pct.participantId then
      .error "Duplicate percentage entry for participant"
    else if pct.percentage < 0 ∨ 100 < pct.percentage then
      .error "Invalid percentage for participant. Must be between 0 and 100"
    else
      checkPercentageEntries participantIds rest
        (mapSet m pct.participantId pct.percentage)

/-- The coverage loop: every request participant must have a map entry. -/
def checkCoverage {α : Type} (m : List (String × α)) (msg : String) :
    List String → Except String Unit
  | [] => .ok ()
  | pid :: rest =>
    if mapHas m pid then checkCoverage m msg rest else .error msg

/-- Percentage split validation (SplitValidator.validatePercentageSplit). -/
def validatePercentageSplit (dto : CalculateSplitDto) : Except String Unit :=
  match dto.percentages with
  | none => .error "Percentage split requires percentage configuration"
  | some percentages =>
    if percentages.length = 0 then
      .error "Percentage split requires percentage configuration"
    else if dto.items.isSome ∨ dto.customAmounts.isSome then
      .error "Percentage split should not include items or custom amounts"
    else
      match checkPercentageEntries dto.participantIds percentages [] with
      | .error e => .error e
      | .ok percentageMap =>
        if 1/100 < |(percentageMap.map (fun p => p.2)).sum - 100| then
          .error "Total percentage must equal 100"
        else
          checkCoverage percentageMap
            "Participant is missing a percentage assignment" dto.participantIds

/-- The `dto.customAmounts.forEach` loop: membership, duplicate and
non-negativity checks per entry, accumulating the amount map. -/
def checkCustomEntries (participantIds : List String) :
    List CustomSplitDto → List (String × ℚ) →
    Except String (List (String × ℚ))
  | [], m => .ok m
  | custom :: rest, m =>
    if custom.participantId ∉ participantIds then
      .error "Custom split includes participant who is not in the main participant list"
    else if mapHas m custom.participantId then
      .error "Duplicate custom amount entry for participant"
    else if custom.amount < 0 then
      .error "Invalid amount for participant. Must be non-negative"
    else
      checkCustomEntries participantIds rest
        (mapSet m custom.participantId custom.amount)

/-- Custom split validation (SplitValidator.validateCustomSplit). -/
def validateCustomSplit (dto : CalculateSplitDto) : Except String Unit :=
  match dto.customAmounts with
  | none => .error "Custom split requires custom amount configuration"
  | some customAmounts =>
    if customAmounts.length = 0 then
      .error "Custom split requires custom amount configuration"
    else if dto.items.isSome ∨ dto.percentages.isSome then
      .error "Custom split should not include items or percentages"
    else
      match checkCustomEntries dto.participantIds customAmounts [] with
      | .error e => .error e
      | .ok amountMap =>
        if 1/100 < |(amountMap.map (fun p => p.2)).sum - dto.subtotal| then
          .error "Sum of custom amounts does not match subtotal"
        else
          checkCoverage amountMap
            "Participant is missing a custom amount assignment" dto.participantIds

/-- Main validation entry point (SplitValidator.validate). -/
def validate (dto : CalculateSplitDto) : Except String Unit :=
  match validateBasicRequirements dto with
  | .error e => .error e
  | .ok _ =>
    match dto.splitType with
    | .equal => validateEqualSplit dto
    | .itemized => validateItemizedSplit dto
    | .percentage => validatePercentageSplit dto
    | .custom => validateCustomSplit dto

/-- Result validation (SplitValidator.validateResult): the calculated total
must match the expected total within one cent, and the rounding adjustment
must stay within one cent per participant. -/
def validateResult (dto : CalculateSplitDto) (calculatedTotal roundingAdjustment : ℚ) :
    Except String Unit :=
  if 1/100 < |calculatedTotal - (dto.subtotal + dto.tax.getD 0 + dto.tip.getD 0)| then
    .error "Calculated total does not match expected total"
  else if (dto.participantIds.length : ℚ) * (1/100) < |roundingAdjustment| then
    .error "Rounding adjustment exceeds reasonable threshold"
  else
    .ok ()

end SplitValidator

namespace SplitCalculationService

/-- The rounding helper `Math.round(value * 100) / 100`: round to two decimal
places.  JavaScript Math.round sends a value with fractional part exactly one
half to the next larger integer (toward positive infinity). -/
def round (value : ℚ) : ℚ := (⌊value * 100 + 1/2⌋ : ℚ) / 100

/-- Proportional tax distribution (SplitCalculationService.distributeTax). -/
def distributeTax (participantSubtotal totalSubtotal totalTax : ℚ) : ℚ :=
  if totalTax = 0 ∨ totalSubtotal = 0 then 0
  else round (totalTax * (participantSubtotal / totalSubtotal))

/-- Tip distribution, equal or proportional
(SplitCalculationService.distributeTip). -/
def distributeTip (participantSubtotal totalSubtotal totalTip : ℚ)
    (distribution : TipDistributionType) (participantCount : ℚ) : ℚ :=
  if totalTip = 0 then 0
  else if distribution = TipDistributionType.equal then
    round (totalTip / participantCount)
  else if totalSubtotal = 0 then
    round (totalTip / participantCount)
  else
    round (totalTip * (participantSubtotal / totalSubtotal))

/-- Equal split (SplitCalculationService.calculateEqualSplit). -/
def calculateEqualSplit (dto : CalculateSplitDto) : List ParticipantShareDto :=
  let participantCount : ℚ := dto.participantIds.length
  let subtotalPerPerson := dto.subtotal / participantCount
  dto.participantIds.map (fun participantId =>
    let subtotal := round subtotalPerPerson
    let tax := distributeTax subtotal dto.subtotal (dto.tax.getD 0)
    let tip := distributeTip subtotal dto.subtotal (dto.tip.getD 0)
      (dto.tipDistribution.getD TipDistributionType.equal) participantCount
    let total := round (subtotal + tax + tip)
    { participantId := participantId, subtotal := subtotal, tax := tax,
      tip := tip, total := total, items := none })

/-- The two maps of the itemized split (participant subtotals and participant
item names), as built by the nested `forEach` loops. -/
def itemStep (st : List (String × ℚ) × List (String × List String))
    (item : ItemDto) : List (String × ℚ) × List (String × List String) :=
  let sharePerPerson := item.price / (item.participantIds.length : ℚ)
  item.participantIds.foldl (fun st2 participantId =>
    (mapSet st2.1 participantId ((mapGet st2.1 participantId).getD 0 + sharePerPerson),
     mapSet st2.2 participantId (((mapGet st2.2 participantId).getD []) ++ [item.name])))
    st

/-- Initialization of the itemized maps: every participant starts at subtotal
zero with no items. -/
def initMaps (participantIds : List String) :
    List (String × ℚ) × List (String × List String) :=
  participantIds.foldl (fun st id => (mapSet st.1 id 0, mapSet st.2 id []))
    ([], [])

/-- Itemized split (SplitCalculationService.calculateItemizedSplit). -/
def calculateItemizedSplit (dto : CalculateSplitDto) : List ParticipantShareDto :=
  let items := dto.items.getD []
  let maps := items.foldl itemStep (initMaps dto.participantIds)
  dto.participantIds.map (fun participantId =>
    let subtotal := round ((mapGet maps.1 participantId).getD 0)
    let tax := distributeTax subtotal dto.subtotal (dto.tax.getD 0)
    let tip := distributeTip subtotal dto.subtotal (dto.tip.getD 0)
      (dto.tipDistribution.getD TipDistributionType.proportional)
      (dto.participantIds.length : ℚ)
    let total := round (subtotal + tax + tip)
    { participantId := participantId, subtotal := subtotal, tax := tax,
      tip := tip, total := total,
      items := some ((mapGet maps.2 participantId).getD []) })

/-- The percentage map of the percentage split. -/
def buildPercentageMap (percentages : List PercentageSplitDto) :
    List (String × ℚ) :=
  percentages.foldl (fun m pct => mapSet m pct.participantId pct.percentage) []

/-- Percentage split (SplitCalculationService.calculatePercentageSplit). -/
def calculatePercentageSplit (dto : CalculateSplitDto) : List ParticipantShareDto :=
  let percentageMap := buildPercentageMap (dto.percentages.getD [])
  dto.participantIds.map (fun participantId =>
    let percentage := (mapGet percentageMap participantId).getD 0
    let subtotal := round ((dto.subtotal * percentage) / 100)
    let tax := distributeTax subtotal dto.subtotal (dto.tax.getD 0)
    let tip := distributeTip subtotal dto.subtotal (dto.tip.getD 0)
      (dto.tipDistribution.getD TipDistributionType.proportional)
      (dto.participantIds.length : ℚ)
    let total := round (subtotal + tax + tip)
    { participantId := participantId, subtotal := subtotal, tax := tax,
      tip := tip, total := total, items := none })

/-- The amount map of the custom split. -/
def buildAmountMap (customAmounts : List CustomSplitDto) : List (String × ℚ) :=
  customAmounts.foldl (fun m custom => mapSet m custom.participantId custom.amount) []

/-- Custom split (SplitCalculationService.calculateCustomSplit). -/
def calculateCustomSplit (dto : CalculateSplitDto) : List ParticipantShareDto :=
  let amountMap := buildAmountMap (dto.customAmounts.getD [])
  dto.participantIds.map (fun participantId =>
    let subtotal := round ((mapGet amountMap participantId).getD 0)
    let tax := distributeTax subtotal dto.subtotal (dto.tax.getD 0)
    let tip := distributeTip subtotal dto.subtotal (dto.tip.getD 0)
      (dto.tipDistribution.getD TipDistributionType.proportional)
      (dto.participantIds.length : ℚ)
    let total := round (subtotal + tax + tip)
    { participantId := participantId, subtotal := subtotal, tax := tax,
      tip := tip, total := total, items := none })

/-- Strategy dispatch: the `switch (dto.splitType)` of calculateSplit. -/
def strategyShares (dto : CalculateSplitDto) : List ParticipantShareDto :=
  match dto.splitType with
  | .equal => calculateEqualSplit dto
  | .itemized => calculateItemizedSplit dto
  | .percentage => calculatePercentageSplit dto
  | .custom => calculateCustomSplit dto

/-- `shares.reduce((sum, share) => sum + share.total, 0)`. -/
def sumTotals (shares : List ParticipantShareDto) : ℚ :=
  shares.foldl (fun sum share => sum + share.total) 0

/-- `dto.subtotal + (dto.tax || 0) + (dto.tip || 0)`. -/
def expectedTotal (dto : CalculateSplitDto) : ℚ :=
  dto.subtotal + dto.tax.getD 0 + dto.tip.getD 0

/-- The signed rounding adjustment computed by calculateSplit. -/
def adjustment (dto : CalculateSplitDto) : ℚ :=
  round (sumTotals (strategyShares dto) - expectedTotal dto)

/-- The `shares.forEach` loop locating the index of the first share with the
largest total: `maxIndex` is updated only on a strictly larger total. -/
def maxTotalIndexAux (i maxIdx : ℕ) (maxTot : ℚ) :
    List ParticipantShareDto → ℕ
  | [] => maxIdx
  | share :: rest =>
    if maxTot < share.total then maxTotalIndexAux (i + 1) i share.total rest
    else maxTotalIndexAux (i + 1) maxIdx maxTot rest

/-- `shares[0].total`, used to seed the maximum search. -/
def headTotal : List ParticipantShareDto → ℚ
  | [] => 0
  | share :: _ => share.total

/-- Rounding adjustment application
(SplitCalculationService.applyRoundingAdjustment): replace the total of the
first share holding the largest total. -/
def applyRoundingAdjustment (shares : List ParticipantShareDto)
    (adjustment : ℚ) : List ParticipantShareDto :=
  if shares.length = 0 ∨ |adjustment| < 1/1000 then shares
  else
    let maxIndex := maxTotalIndexAux 0 0 (headTotal shares) shares
    match shares.get? maxIndex with
    | some s =>
      shares.set maxIndex { s with total := round (s.total - adjustment) }
    | none => shares

/-- The shares actually returned: adjusted only when the rounding adjustment
threshold is exceeded. -/
def finalShares (dto : CalculateSplitDto) : List ParticipantShareDto :=
  if 1/1000 < |adjustment dto| then
    applyRoundingAdjustment (strategyShares dto) (adjustment dto)
  else strategyShares dto

/-- Main entry point (SplitCalculationService.calculateSplit). -/
def calculateSplit (dto : CalculateSplitDto) :
    Except String SplitCalculationResultDto :=
  match SplitValidator.validate dto with
  | .error e => .error e
  | .ok _ =>
    match SplitValidator.validateResult dto (sumTotals (finalShares dto))
        (adjustment dto) with
    | .error e => .error e
    | .ok _ =>
      .ok { splitType := dto.splitType
            originalSubtotal := dto.subtotal
            originalTax := dto.tax.getD 0
            originalTip := dto.tip.getD 0
            grandTotal := round (expectedTotal dto)
            shares := finalShares dto
            roundingAdjustment := adjustment dto }

end SplitCalculationService

section Derived

open SplitCalculationService

/-- A value is a whole number of cents. -/
def IsCents (x : ℚ) : Prop := ∃ k : ℤ, x = (k : ℚ) / 100

/-- The per-participant raw (pre-rounding) subtotal each strategy feeds into
the rounding helper, as a function of the participant alone: equal division,
summed item contributions, percentage-map share, or custom-map amount. -/
def participantRawSubtotal (dto : CalculateSplitDto) (pid : String) : ℚ :=
  match dto.splitType with
  | .equal => dto.subtotal / (dto.participantIds.length : ℚ)
  | .itemized =>
    ((dto.items.getD []).map (fun item =>
      (item.participantIds.count pid : ℚ) *
        (item.price / (item.participantIds.length : ℚ)))).sum
  | .percentage =>
    (dto.subtotal *
      ((mapGet (buildPercentageMap (dto.percentages.getD [])) pid).getD 0)) / 100
  | .custom => (mapGet (buildAmountMap (dto.customAmounts.getD [])) pid).getD 0

/-- The item names recorded for a participant of an itemized split: one copy
of the item name per occurrence of the participant in the item's list. -/
def participantItemNames (dto : CalculateSplitDto) (pid : String) : List String :=
  ((dto.items.getD []).map (fun item =>
    List.replicate (item.participantIds.count pid) item.name)).flatten

/-- The share each strategy builds for one participant, written as a function
of the participant identifier; the strategy lists are proved equal to mapping
this function over `participantIds`. -/
def shareFor (dto : CalculateSplitDto) (pid : String) : ParticipantShareDto :=
  let subtotal := SplitCalculationService.round (participantRawSubtotal dto pid)
  let tax := distributeTax subtotal dto.subtotal (dto.tax.getD 0)
  let tip := distributeTip subtotal dto.subtotal (dto.tip.getD 0)
    (dto.tipDistribution.getD
      (if dto.splitType = SplitType.equal then TipDistributionType.equal
       else TipDistributionType.proportional))
    (dto.participantIds.length : ℚ)
  let total := SplitCalculationService.round (subtotal + tax + tip)
  { participantId := pid, subtotal := subtotal, tax := tax, tip := tip,
    total := total,
    items := if dto.splitType = SplitType.itemized then
        some (participantItemNames dto pid)
      else none }

/-- Modelled from the claim wording of C6: the tip share formula, with the
effective mode defaulting to Equal for equal splits and Proportional for the
other three strategies. -/
def tipShareSpec (dto : CalculateSplitDto) (participantSubtotal : ℚ) : ℚ :=
  let mode := dto.tipDistribution.getD
    (if dto.splitType = SplitType.equal then TipDistributionType.equal
     else TipDistributionType.proportional)
  let n : ℚ := dto.participantIds.length
  let tip := dto.tip.getD 0
  if mode = TipDistributionType.equal then SplitCalculationService.round (tip / n)
  else if dto.subtotal ≠ 0 then SplitCalculationService.round (tip * participantSubtotal / dto.subtotal)
  else SplitCalculationService.round (tip / n)

/-- Modelled from the claim wording of C3: rounding to the nearest cent with
ties away from zero, `sign(v) * floor(abs(v) * 100 + 0.5) / 100`. -/
def roundHalfAwaySpec (v : ℚ) : ℚ :=
  (if v < 0 then (-1 : ℚ) else 1) * ((⌊|v| * 100 + 1/2⌋ : ℚ) / 100)

/-- Index `i` points at the first share holding the largest total: every share
total is at most the total at `i`, and every earlier share total is strictly
below it. -/
def IsFirstMaxIdx (shares : List ParticipantShareDto) (i : ℕ) : Prop :=
  ∃ s, shares.get? i = some s ∧
    (∀ j t, shares.get? j = some t → t.total ≤ s.total) ∧
    (∀ j, j < i → ∀ t, shares.get? j = some t → t.total < s.total)

/-- Claim C8 condition: some request participant has no percentage entry. -/
def percMissingSpec (dto : CalculateSplitDto) : Prop :=
  ∃ pid ∈ dto.participantIds,
    ∀ e ∈ dto.percentages.getD [], e.participantId ≠ pid

/-- Claim C8 condition: some entry names a participant outside the request's
participant set. -/
def percForeignSpec (dto : CalculateSplitDto) : Prop :=
  ∃ e ∈ dto.percentages.getD [], e.participantId ∉ dto.participantIds

/-- Claim C8 condition: two entries name the same participant. -/
def percDupSpec (dto : CalculateSplitDto) : Prop :=
  ¬ ((dto.percentages.getD []).map (fun e => e.participantId)).Nodup

/-- Claim C8 condition: some percentage lies outside the interval from 0 to
100. -/
def percRangeSpec (dto : CalculateSplitDto) : Prop :=
  ∃ e ∈ dto.percentages.getD [], e.percentage < 0 ∨ 100 < e.percentage

/-- Claim C8 condition: the percentages sum more than 0.01 away from 100. -/
def percSumSpec (dto : CalculateSplitDto) : Prop :=
  1/100 < |((dto.percentages.getD []).map (fun e => e.percentage)).sum - 100|

end Derived

section ConcreteInputs

/-- Scenario 1 of the spec: equal split of 100 with tax 10 and tip 15 between
two participants. -/
def dtoScenario1 : CalculateSplitDto :=
  { splitType := .equal, subtotal := 100, tax := some 10, tip := some 15,
    tipDistribution := none, participantIds := ["user1", "user2"],
    items := none, percentages := none, customAmounts := none }

/-- The share each participant receives in scenario 1. -/
def shareScenario1 (pid : String) : ParticipantShareDto :=
  { participantId := pid, subtotal := 50, tax := 5, tip := 15/2,
    total := 125/2, items := none }

/-- The result of scenario 1. -/
def resScenario1 : SplitCalculationResultDto :=
  { splitType := .equal, originalSubtotal := 100, originalTax := 10,
    originalTip := 15, grandTotal := 125,
    shares := [shareScenario1 "user1", shareScenario1 "user2"],
    roundingAdjustment := 0 }

/-- Scenario 2 of the spec: equal split of 100 among three participants,
forcing a one-cent rounding reconciliation. -/
def dtoEqual3 : CalculateSplitDto :=
  { splitType := .equal, subtotal := 100, tax := some 0, tip := some 0,
    tipDistribution := none, participantIds := ["user1", "user2", "user3"],
    items := none, percentages := none, customAmounts := none }

/-- An unadjusted share of the three-way equal split. -/
def shareEqual3 (pid : String) : ParticipantShareDto :=
  { participantId := pid, subtotal := 3333/100, tax := 0, tip := 0,
    total := 3333/100, items := none }

/-- The adjusted (first) share of the three-way equal split. -/
def shareEqual3Adj (pid : String) : ParticipantShareDto :=
  { participantId := pid, subtotal := 3333/100, tax := 0, tip := 0,
    total := 3334/100, items := none }

/-- The result of the three-way equal split. -/
def resEqual3 : SplitCalculationResultDto :=
  { splitType := .equal, originalSubtotal := 100, originalTax := 0,
    originalTip := 0, grandTotal := 100,
    shares := [shareEqual3Adj "user1", shareEqual3 "user2", shareEqual3 "user3"],
    roundingAdjustment := -1/100 }

/-- The three-way equal split with the first two participants swapped. -/
def dtoEqual3P : CalculateSplitDto :=
  { splitType := .equal, subtotal := 100, tax := some 0, tip := some 0,
    tipDistribution := none, participantIds := ["user2", "user1", "user3"],
    items := none, percentages := none, customAmounts := none }

/-- The result of the permuted three-way equal split: the one-cent correction
lands on a different participant. -/
def resEqual3P : SplitCalculationResultDto :=
  { splitType := .equal, originalSubtotal := 100, originalTax := 0,
    originalTip := 0, grandTotal := 100,
    shares := [shareEqual3Adj "user2", shareEqual3 "user1", shareEqual3 "user3"],
    roundingAdjustment := -1/100 }

/-- A percentage request that passes every precondition (the percentages sum
to 99.99, inside the 0.01 tolerance) yet drives the calculated total 0.03
away from the expected total, beyond the result validator's adjustment
threshold for two participants. -/
def dtoPercDrift : CalculateSplitDto :=
  { splitType := .percentage, subtotal := 300, tax := none, tip := none,
    tipDistribution := none, participantIds := ["u1", "u2"],
    items := none,
    percentages := some [{ participantId := "u1", percentage := 50 },
                         { participantId := "u2", percentage := 4999/100 }],
    customAmounts := none }

/-- An equal split whose subtotal 10.005 carries a half-cent: the echoed
originalSubtotal is not two-decimal rounded. -/
def dtoRawSubtotal : CalculateSplitDto :=
  { splitType := .equal, subtotal := 2001/200, tax := none, tip := none,
    tipDistribution := none, participantIds := ["u1"],
    items := none, percentages := none, customAmounts := none }

/-- The result of the half-cent-subtotal request. -/
def resRawSubtotal : SplitCalculationResultDto :=
  { splitType := .equal, originalSubtotal := 2001/200, originalTax := 0,
    originalTip := 0, grandTotal := 1001/100,
    shares := [{ participantId := "u1", subtotal := 1001/100, tax := 0,
                 tip := 0, total := 10, items := none }],
    roundingAdjustment := 1/100 }

/-- Scenario 3 of the spec: itemized split, item A of 30 for u1 and item B of
20 for u2, with tax 5 and tip 10. -/
def dtoItemized : CalculateSplitDto :=
  { splitType := .itemized, subtotal := 50, tax := some 5, tip := some 10,
    tipDistribution := none, participantIds := ["u1", "u2"],
    items := some [{ name := "A", price := 30, participantIds := ["u1"] },
                   { name := "B", price := 20, participantIds := ["u2"] }],
    percentages := none, customAmounts := none }

/-- The first share of the itemized scenario. -/
def shareItemized1 : ParticipantShareDto :=
  { participantId := "u1", subtotal := 30, tax := 3, tip := 6,
    total := 39, items := some ["A"] }

/-- The second share of the itemized scenario. -/
def shareItemized2 : ParticipantShareDto :=
  { participantId := "u2", subtotal := 20, tax := 2, tip := 4,
    total := 26, items := some ["B"] }

/-- The result of the itemized scenario. -/
def resItemized : SplitCalculationResultDto :=
  { splitType := .itemized, originalSubtotal := 50, originalTax := 5,
    originalTip := 10, grandTotal := 65,
    shares := [shareItemized1, shareItemized2],
    roundingAdjustment := 0 }

/-- A percentage request whose percentage entries are perfect but which also
carries an items payload. -/
def dtoPercPayload : CalculateSplitDto :=
  { splitType := .percentage, subtotal := 100, tax := none, tip := none,
    tipDistribution := none, participantIds := ["u1", "u2"],
    items := some [{ name := "x", price := 100, participantIds := ["u1"] }],
    percentages := some [{ participantId := "u1", percentage := 60 },
                         { participantId := "u2", percentage := 40 }],
    customAmounts := none }

/-- Scenario 4 of the spec: a well-formed 60/40 percentage request. -/
def dtoPercGood : CalculateSplitDto :=
  { splitType := .percentage, subtotal := 100, tax := some 10, tip := some 20,
    tipDistribution := none, participantIds := ["u1", "u2"],
    items := none,
    percentages := some [{ participantId := "u1", percentage := 60 },
                         { participantId := "u2", percentage := 40 }],
    customAmounts := none }

end ConcreteInputs

namespace SplitCalculationService

lemma round_concrete (q : ℚ) (n : ℤ) (h₁ : (n : ℚ) ≤ q * 100 + 1/2)
    (h₂ : q * 100 + 1/2 < (n : ℚ) + 1) : round q = (n : ℚ) / 100 := by
  unfold round
  rw [show ⌊q * 100 + 1/2⌋ = n from Int.floor_eq_iff.mpr ⟨h₁, by exact_mod_cast h₂⟩]

lemma round_isCents (v : ℚ) : IsCents (round v) := ⟨⌊v * 100 + 1/2⌋, rfl⟩

lemma round_cents (k : ℤ) : round ((k : ℚ) / 100) = (k : ℚ) / 100 := by
  apply round_concrete
  · rw [div_mul_cancel₀ _ (by norm_num : (100 : ℚ) ≠ 0)]; linarith
  · rw [div_mul_cancel₀ _ (by norm_num : (100 : ℚ) ≠ 0)]; linarith

lemma round_cents_eq {x : ℚ} (h : IsCents x) : round x = x := by
  obtain ⟨k, rfl⟩ := h; exact round_cents k

lemma round_le (v : ℚ) : round v ≤ v + 1/200 := by
  have h := Int.floor_le (v * 100 + 1/2)
  unfold round; linarith

lemma lt_round (v : ℚ) : v - 1/200 < round v := by
  have h := Int.lt_floor_add_one (v * 100 + 1/2)
  unfold round; push_cast at h ⊢; linarith

lemma round_zero : round 0 = 0 := by
  have := round_cents 0; simpa using this

lemma round_eq_zero_bounds {v : ℚ} (h : round v = 0) :
    -(1/200) ≤ v ∧ v < 1/200 := by
  unfold round at h
  rw [div_eq_zero_iff] at h
  have h1 : ⌊v * 100 + 1/2⌋ = 0 := by
    rcases h with h | h
    · exact_mod_cast h
    · norm_num at h
  rw [Int.floor_eq_zero_iff, Set.mem_Ico] at h1
  constructor <;> linarith [h1.1, h1.2]

lemma cents_eq_zero {a : ℚ} (h : IsCents a) (hs : |a| ≤ 1/1000) : a = 0 := by
  obtain ⟨k, rfl⟩ := h
  have hk : |(k : ℚ)| ≤ 1/10 := by
    rw [abs_div, abs_of_pos (by norm_num : (0:ℚ) < 100)] at hs
    linarith
  have h2 : |(k : ℚ)| < 1 := lt_of_le_of_lt hk (by norm_num)
  rw [← Int.cast_abs] at h2
  have h3 : |k| < 1 := by exact_mod_cast h2
  rw [Int.abs_lt_one_iff.mp h3]; norm_num

lemma IsCents.zero : IsCents 0 := ⟨0, by norm_num⟩

lemma IsCents.add {a b : ℚ} (ha : IsCents a) (hb : IsCents b) : IsCents (a + b) := by
  obtain ⟨k, rfl⟩ := ha; obtain ⟨l, rfl⟩ := hb
  exact ⟨k + l, by push_cast; ring⟩

lemma IsCents.sub {a b : ℚ} (ha : IsCents a) (hb : IsCents b) : IsCents (a - b) := by
  obtain ⟨k, rfl⟩ := ha; obtain ⟨l, rfl⟩ := hb
  exact ⟨k - l, by push_cast; ring⟩

lemma sumTotals_aux (shares : List ParticipantShareDto) (a : ℚ) :
    shares.foldl (fun sum share => sum + share.total) a =
      a + (shares.map (fun s => s.total)).sum := by
  induction shares generalizing a with
  | nil => simp
  | cons s rest ih => simp [List.foldl, ih]; ring

lemma sumTotals_eq (shares : List ParticipantShareDto) :
    sumTotals shares = (shares.map (fun s => s.total)).sum := by
  unfold sumTotals; rw [sumTotals_aux]; ring

lemma sumTotals_perm {l l' : List ParticipantShareDto} (h : l.Perm l') :
    sumTotals l = sumTotals l' := by
  rw [sumTotals_eq, sumTotals_eq]
  exact (h.map (fun s => s.total)).sum_eq

lemma sumTotals_set {shares : List ParticipantShareDto} {i : ℕ}
    {s : ParticipantShareDto} (t : ParticipantShareDto)
    (h : shares.get? i = some s) :
    sumTotals (shares.set i t) = sumTotals shares - s.total + t.total := by
  induction shares generalizing i with
  | nil => simp at h
  | cons hd rest ih =>
    cases i with
    | zero =>
      simp only [List.get?] at h
      obtain rfl : hd = s := by injection h
      simp [List.set, sumTotals_eq, List.map, List.sum_cons]; ring
    | succ j =>
      simp only [List.get?] at h
      have h2 := ih h
      rw [sumTotals_eq, sumTotals_eq] at h2
      rw [sumTotals_eq, sumTotals_eq]
      simp only [List.set, List.map, List.sum_cons]
      linarith [h2]

end SplitCalculationService

lemma mapGet_set_self {α : Type} (m : List (String × α)) (k : String) (v : α) :
    mapGet (mapSet m k v) k = some v := by
  induction m with
  | nil => simp [mapSet, mapGet]
  | cons p rest ih =>
    by_cases h : p.1 = k
    · simp [mapSet, mapGet, h]
    · simp [mapSet, mapGet, h, ih]

lemma mapGet_set_ne {α : Type} (m : List (String × α)) (k k' : String) (v : α)
    (h : k ≠ k') : mapGet (mapSet m k v) k' = mapGet m k' := by
  induction m with
  | nil => simp [mapSet, mapGet, h]
  | cons p rest ih =>
    by_cases hp : p.1 = k
    · simp [mapSet, mapGet, hp, h]
    · simp only [mapSet, hp, if_false, mapGet]
      by_cases hp' : p.1 = k'
      · simp [hp']
      · simp [hp', ih]

lemma mapGet_append_of_some {α : Type} {m₁ : List (String × α)} {k : String}
    {v : α} (m₂ : List (String × α)) (h : mapGet m₁ k = some v) :
    mapGet (m₁ ++ m₂) k = some v := by
  induction m₁ with
  | nil => simp [mapGet] at h
  | cons p rest ih =>
    by_cases hp : p.1 = k
    · simp only [mapGet, hp, if_true] at h ⊢
      simpa using h
    · simp only [mapGet, hp, if_false] at h ⊢
      exact ih h

lemma mapGet_append_of_none {α : Type} {m₁ : List (String × α)} {k : String}
    (m₂ : List (String × α)) (h : mapGet m₁ k = none) :
    mapGet (m₁ ++ m₂) k = mapGet m₂ k := by
  induction m₁ with
  | nil => simp
  | cons p rest ih =>
    by_cases hp : p.1 = k
    · simp [mapGet, hp] at h
    · simp only [mapGet, hp, if_false] at h ⊢
      exact ih h

lemma mapSet_eq_append {α : Type} {m : List (String × α)} {k : String} (v : α)
    (h : mapHas m k = false) : mapSet m k v = m ++ [(k, v)] := by
  induction m with
  | nil => simp [mapSet]
  | cons p rest ih =>
    unfold mapHas mapGet at h
    by_cases hp : p.1 = k
    · simp [hp] at h
    · simp only [hp, if_false] at h
      simp [mapSet, hp, ih h]

lemma foldl_pair_split {α β γ : Type} (f : α → γ → α) (g : β → γ → β)
    (l : List γ) (a : α) (b : β) :
    l.foldl (fun st c => (f st.1 c, g st.2 c)) (a, b) =
      (l.foldl f a, l.foldl g b) := by
  induction l generalizing a b with
  | nil => rfl
  | cons c rest ih => simp [List.foldl, ih]

lemma foldl_mapSet_const_get {α : Type} (pids : List String) (c : α)
    (m : List (String × α)) (pid : String) :
    mapGet (pids.foldl (fun m id => mapSet m id c) m) pid =
      if pid ∈ pids then some c else mapGet m pid := by
  induction pids generalizing m with
  | nil => simp
  | cons id rest ih =>
    simp only [List.foldl]
    rw [ih]
    by_cases hm : pid ∈ rest
    · simp [hm]
    · by_cases hid : id = pid
      · subst hid; simp [hm, mapGet_set_self]
      · simp only [hm, if_false, List.mem_cons]
        rw [mapGet_set_ne _ _ _ _ hid]
        simp [Ne.symm hid, hm]

lemma mapHas_iff_mem_keys {α : Type} (m : List (String × α)) (k : String) :
    mapHas m k = true ↔ k ∈ m.map (fun p => p.1) := by
  induction m with
  | nil => simp [mapHas, mapGet]
  | cons p rest ih =>
    unfold mapHas mapGet
    by_cases hp : p.1 = k
    · simp [hp]
    · simp only [hp, if_false, List.map, List.mem_cons]
      rw [← ih]
      simp [Ne.symm hp, mapHas]

namespace SplitCalculationService

lemma innerFold_sub (l : List String) (spp : ℚ) (m : List (String × ℚ))
    (pid : String) (v : ℚ) (h : mapGet m pid = some v) :
    mapGet (l.foldl (fun m2 p => mapSet m2 p ((mapGet m2 p).getD 0 + spp)) m) pid =
      some (v + (l.count pid : ℚ) * spp) := by
  induction l generalizing m v with
  | nil => simp [h]
  | cons k rest ih =>
    simp only [List.foldl]
    by_cases hk : k = pid
    · subst hk
      have hget : mapGet (mapSet m k ((mapGet m k).getD 0 + spp)) k = some (v + spp) := by
        rw [mapGet_set_self, h]; rfl
      rw [ih _ _ hget, List.count_cons_self]
      push_cast
      ring_nf
    · have hget : mapGet (mapSet m k ((mapGet m k).getD 0 + spp)) pid = some v := by
        rw [mapGet_set_ne _ _ _ _ hk, h]
      rw [ih _ _ hget, List.count_cons_of_ne (Ne.symm hk)]

lemma innerFold_names (l : List String) (nm : String)
    (m : List (String × List String)) (pid : String) (v : List String)
    (h : mapGet m pid = some v) :
    mapGet (l.foldl (fun m2 p => mapSet m2 p ((mapGet m2 p).getD [] ++ [nm])) m) pid =
      some (v ++ List.replicate (l.count pid) nm) := by
  induction l generalizing m v with
  | nil => simp [h]
  | cons k rest ih =>
    simp only [List.foldl]
    by_cases hk : k = pid
    · subst hk
      have hget : mapGet (mapSet m k ((mapGet m k).getD [] ++ [nm])) k =
          some (v ++ [nm]) := by
        rw [mapGet_set_self, h]; rfl
      rw [ih _ _ hget, List.count_cons_self, List.replicate_succ]
      simp
    · have hget : mapGet (mapSet m k ((mapGet m k).getD [] ++ [nm])) pid = some v := by
        rw [mapGet_set_ne _ _ _ _ hk, h]
      rw [ih _ _ hget, List.count_cons_of_ne (Ne.symm hk)]

lemma itemStep_split (st : List (String × ℚ) × List (String × List String))
    (item : ItemDto) :
    itemStep st item =
      (item.participantIds.foldl
        (fun m2 p => mapSet m2 p ((mapGet m2 p).getD 0 +
          item.price / (item.participantIds.length : ℚ))) st.1,
       item.participantIds.foldl
        (fun m2 p => mapSet m2 p ((mapGet m2 p).getD [] ++ [item.name])) st.2) := by
  obtain ⟨m1, m2⟩ := st
  unfold itemStep
  exact foldl_pair_split
    (fun m2 p => mapSet m2 p ((mapGet m2 p).getD 0 +
      item.price / (item.participantIds.length : ℚ)))
    (fun m2 p => mapSet m2 p ((mapGet m2 p).getD [] ++ [item.name]))
    item.participantIds m1 m2

lemma itemsFold_sub (items : List ItemDto)
    (st : List (String × ℚ) × List (String × List String)) (pid : String)
    (v : ℚ) (h : mapGet st.1 pid = some v) :
    mapGet ((items.foldl itemStep st).1) pid =
      some (v + ((items.map (fun item =>
        (item.participantIds.count pid : ℚ) *
          (item.price / (item.participantIds.length : ℚ)))).sum)) := by
  induction items generalizing st v with
  | nil => simp [h]
  | cons item rest ih =>
    simp only [List.foldl]
    have h1 : mapGet ((itemStep st item).1) pid =
        some (v + (item.participantIds.count pid : ℚ) *
          (item.price / (item.participantIds.length : ℚ))) := by
      rw [itemStep_split]
      exact innerFold_sub _ _ _ _ _ h
    rw [ih _ _ h1]
    simp only [List.map, List.sum_cons]
    congr 1
    ring

lemma itemsFold_names (items : List ItemDto)
    (st : List (String × ℚ) × List (String × List String)) (pid : String)
    (v : List String) (h : mapGet st.2 pid = some v) :
    mapGet ((items.foldl itemStep st).2) pid =
      some (v ++ ((items.map (fun item =>
        List.replicate (item.participantIds.count pid) item.name)).flatten)) := by
  induction items generalizing st v with
  | nil => simp [h]
  | cons item rest ih =>
    simp only [List.foldl]
    have h1 : mapGet ((itemStep st item).2) pid =
        some (v ++ List.replicate (item.participantIds.count pid) item.name) := by
      rw [itemStep_split]
      exact innerFold_names _ _ _ _ _ h
    rw [ih _ _ h1]
    simp

lemma initMaps_split (pids : List String) :
    initMaps pids = (pids.foldl (fun m id => mapSet m id 0) [],
      pids.foldl (fun m id => mapSet m id []) []) := by
  unfold initMaps
  exact foldl_pair_split (fun m id => mapSet m id 0)
    (fun m id => mapSet m id []) pids [] []

lemma initMaps_sub {pids : List String} {pid : String} (h : pid ∈ pids) :
    mapGet (initMaps pids).1 pid = some 0 := by
  rw [initMaps_split]
  simpa [h] using foldl_mapSet_const_get pids (0 : ℚ) [] pid

lemma initMaps_names {pids : List String} {pid : String} (h : pid ∈ pids) :
    mapGet (initMaps pids).2 pid = some [] := by
  rw [initMaps_split]
  simpa [h] using foldl_mapSet_const_get pids ([] : List String) [] pid

end SplitCalculationService

lemma itemized_lookup_sub (dto : CalculateSplitDto) {pid : String}
    (h : pid ∈ dto.participantIds) :
    (mapGet ((dto.items.getD []).foldl SplitCalculationService.itemStep
        (SplitCalculationService.initMaps dto.participantIds)).1 pid).getD 0 =
      ((dto.items.getD []).map (fun item =>
        (item.participantIds.count pid : ℚ) *
          (item.price / (item.participantIds.length : ℚ)))).sum := by
  rw [SplitCalculationService.itemsFold_sub _ _ _ 0
    (SplitCalculationService.initMaps_sub h)]
  simp

lemma itemized_lookup_names (dto : CalculateSplitDto) {pid : String}
    (h : pid ∈ dto.participantIds) :
    (mapGet ((dto.items.getD []).foldl SplitCalculationService.itemStep
        (SplitCalculationService.initMaps dto.participantIds)).2 pid).getD [] =
      participantItemNames dto pid := by
  rw [SplitCalculationService.itemsFold_names _ _ _ []
    (SplitCalculationService.initMaps_names h)]
  simp [participantItemNames]

lemma strategyShares_eq_map (dto : CalculateSplitDto) :
    SplitCalculationService.strategyShares dto =
      dto.participantIds.map (shareFor dto) := by
  unfold SplitCalculationService.strategyShares
  cases hst : dto.splitType with
  | equal =>
    simp only [SplitCalculationService.calculateEqualSplit]
    apply List.map_congr_left
    intro pid hpid
    simp [shareFor, participantRawSubtotal, hst]
  | itemized =>
    simp only [SplitCalculationService.calculateItemizedSplit]
    apply List.map_congr_left
    intro pid hpid
    simp [shareFor, participantRawSubtotal, hst,
      itemized_lookup_sub dto hpid, itemized_lookup_names dto hpid]
  | percentage =>
    simp only [SplitCalculationService.calculatePercentageSplit]
    apply List.map_congr_left
    intro pid hpid
    simp [shareFor, participantRawSubtotal, hst]
  | custom =>
    simp only [SplitCalculationService.calculateCustomSplit]
    apply List.map_congr_left
    intro pid hpid
    simp [shareFor, participantRawSubtotal, hst]

lemma shareFor_participantId (dto : CalculateSplitDto) (pid : String) :
    (shareFor dto pid).participantId = pid := rfl

lemma shareFor_subtotal (dto : CalculateSplitDto) (pid : String) :
    (shareFor dto pid).subtotal =
      SplitCalculationService.round (participantRawSubtotal dto pid) := rfl

lemma shareFor_tax (dto : CalculateSplitDto) (pid : String) :
    (shareFor dto pid).tax =
      SplitCalculationService.distributeTax (shareFor dto pid).subtotal
        dto.subtotal (dto.tax.getD 0) := rfl

lemma shareFor_tip (dto : CalculateSplitDto) (pid : String) :
    (shareFor dto pid).tip =
      SplitCalculationService.distributeTip (shareFor dto pid).subtotal
        dto.subtotal (dto.tip.getD 0)
        (dto.tipDistribution.getD
          (if dto.splitType = SplitType.equal then TipDistributionType.equal
           else TipDistributionType.proportional))
        (dto.participantIds.length : ℚ) := rfl

lemma shareFor_total (dto : CalculateSplitDto) (pid : String) :
    (shareFor dto pid).total =
      SplitCalculationService.round ((shareFor dto pid).subtotal +
        (shareFor dto pid).tax + (shareFor dto pid).tip) := rfl

lemma shareFor_items (dto : CalculateSplitDto) (pid : String) :
    (shareFor dto pid).items =
      if dto.splitType = SplitType.itemized then
        some (participantItemNames dto pid)
      else none := rfl

lemma distributeTax_isCents (a b c : ℚ) :
    IsCents (SplitCalculationService.distributeTax a b c) := by
  unfold SplitCalculationService.distributeTax
  split
  · exact SplitCalculationService.IsCents.zero
  · exact SplitCalculationService.round_isCents _

lemma distributeTip_isCents (a b c : ℚ) (d : TipDistributionType) (n : ℚ) :
    IsCents (SplitCalculationService.distributeTip a b c d n) := by
  unfold SplitCalculationService.distributeTip
  split
  · exact SplitCalculationService.IsCents.zero
  · split
    · exact SplitCalculationService.round_isCents _
    · split
      · exact SplitCalculationService.round_isCents _
      · exact SplitCalculationService.round_isCents _

lemma shareFor_cents (dto : CalculateSplitDto) (pid : String) :
    IsCents (shareFor dto pid).subtotal ∧ IsCents (shareFor dto pid).tax ∧
      IsCents (shareFor dto pid).tip ∧ IsCents (shareFor dto pid).total ∧
      (shareFor dto pid).total = (shareFor dto pid).subtotal +
        (shareFor dto pid).tax + (shareFor dto pid).tip := by
  have hs : IsCents (shareFor dto pid).subtotal := by
    rw [shareFor_subtotal]; exact SplitCalculationService.round_isCents _
  have ht : IsCents (shareFor dto pid).tax := by
    rw [shareFor_tax]; exact distributeTax_isCents _ _ _
  have hp : IsCents (shareFor dto pid).tip := by
    rw [shareFor_tip]; exact distributeTip_isCents _ _ _ _ _
  have hsum : IsCents ((shareFor dto pid).subtotal + (shareFor dto pid).tax +
      (shareFor dto pid).tip) :=
    SplitCalculationService.IsCents.add (SplitCalculationService.IsCents.add hs ht) hp
  have htot : (shareFor dto pid).total = (shareFor dto pid).subtotal +
      (shareFor dto pid).tax + (shareFor dto pid).tip := by
    rw [shareFor_total]
    exact SplitCalculationService.round_cents_eq hsum
  exact ⟨hs, ht, hp, htot ▸ hsum, htot⟩

lemma mem_strategyShares (dto : CalculateSplitDto) {s : ParticipantShareDto}
    (hs : s ∈ SplitCalculationService.strategyShares dto) :
    ∃ pid ∈ dto.participantIds, s = shareFor dto pid := by
  rw [strategyShares_eq_map] at hs
  obtain ⟨pid, hpid, heq⟩ := List.mem_map.mp hs
  exact ⟨pid, hpid, heq.symm⟩

lemma maxTotalIndexAux_go (l : List ParticipantShareDto) :
    ∀ (pre : List ParticipantShareDto) (m : ℕ) (sm : ParticipantShareDto),
      pre.get? m = some sm →
      (∀ j s', pre.get? j = some s' → s'.total ≤ sm.total) →
      (∀ j, j < m → ∀ s', pre.get? j = some s' → s'.total < sm.total) →
      IsFirstMaxIdx (pre ++ l)
        (SplitCalculationService.maxTotalIndexAux pre.length m sm.total l) := by
  induction l with
  | nil =>
    intro pre m sm hget hle hlt
    unfold SplitCalculationService.maxTotalIndexAux
    refine ⟨sm, ?_, ?_, ?_⟩
    · simpa using hget
    · intro j s' hj; rw [List.append_nil] at hj; exact hle j s' hj
    · intro j hjm s' hj; rw [List.append_nil] at hj; exact hlt j hjm s' hj
  | cons s rest ih =>
    intro pre m sm hget hle hlt
    have hm : m < pre.length := (List.get?_eq_some.mp hget).1
    have happ : pre ++ s :: rest = (pre ++ [s]) ++ rest := by
      simp
    unfold SplitCalculationService.maxTotalIndexAux
    by_cases hcmp : sm.total < s.total
    · rw [if_pos hcmp, happ]
      have hlen : pre.length + 1 = (pre ++ [s]).length := by simp
      rw [show pre.length + 1 = (pre ++ [s]).length from by simp]
      apply ih (pre ++ [s]) pre.length s
      · exact List.get?_concat_length pre s
      · intro j s' hj
        rcases Nat.lt_trichotomy j pre.length with hjlt | hjeq | hjgt
        · rw [List.get?_append hjlt] at hj
          exact le_of_lt (lt_of_le_of_lt (hle j s' hj) hcmp)
        · subst hjeq
          rw [List.get?_concat_length] at hj
          injection hj with hj; subst hj; exact le_refl _
        · have : (pre ++ [s]).get? j = none :=
            List.get?_eq_none.mpr (by simp; omega)
          rw [this] at hj; exact absurd hj (by simp)
      · intro j hjm s' hj
        rw [List.get?_append hjm] at hj
        exact lt_of_le_of_lt (hle j s' hj) hcmp
    · rw [if_neg hcmp, happ]
      rw [show pre.length + 1 = (pre ++ [s]).length from by simp]
      apply ih (pre ++ [s]) m sm
      · rw [List.get?_append hm]; exact hget
      · intro j s' hj
        rcases Nat.lt_trichotomy j pre.length with hjlt | hjeq | hjgt
        · rw [List.get?_append hjlt] at hj
          exact hle j s' hj
        · subst hjeq
          rw [List.get?_concat_length] at hj
          injection hj with hj; subst hj
          exact le_of_not_lt hcmp
        · have : (pre ++ [s]).get? j = none :=
            List.get?_eq_none.mpr (by simp; omega)
          rw [this] at hj; exact absurd hj (by simp)
      · intro j hjm s' hj
        rw [List.get?_append (lt_trans hjm hm)] at hj
        exact hlt j hjm s' hj

lemma applyRA_spec (shares : List ParticipantShareDto) (adj : ℚ)
    (hne : shares ≠ []) (hadj : ¬ |adj| < 1/1000) :
    ∃ i s, IsFirstMaxIdx shares i ∧ shares.get? i = some s ∧
      SplitCalculationService.applyRoundingAdjustment shares adj =
        shares.set i { s with
          total := SplitCalculationService.round (s.total - adj) } := by
  obtain ⟨s₀, rest, rfl⟩ : ∃ s₀ rest, shares = s₀ :: rest := by
    cases shares with
    | nil => exact absurd rfl hne
    | cons a b => exact ⟨a, b, rfl⟩
  have hmax : IsFirstMaxIdx (s₀ :: rest)
      (SplitCalculationService.maxTotalIndexAux 0 0
        (SplitCalculationService.headTotal (s₀ :: rest)) (s₀ :: rest)) := by
    have hstep : SplitCalculationService.maxTotalIndexAux 0 0 s₀.total (s₀ :: rest) =
        SplitCalculationService.maxTotalIndexAux 1 0 s₀.total rest := by
      unfold SplitCalculationService.maxTotalIndexAux
      rw [if_neg (lt_irrefl s₀.total)]
      cases rest <;> rfl
    have hgo := maxTotalIndexAux_go rest [s₀] 0 s₀ rfl
      (by intro j s' hj
          cases j with
          | zero => injection hj with hj; subst hj; exact le_refl _
          | succ j => simp [List.get?] at hj)
      (by intro j hjm; omega)
    simp only [List.length_singleton, List.singleton_append] at hgo
    rw [SplitCalculationService.headTotal, hstep]
    exact hgo
  obtain ⟨s, hget, hle, hlt⟩ := hmax
  refine ⟨_, s, ⟨s, hget, hle, hlt⟩, hget, ?_⟩
  unfold SplitCalculationService.applyRoundingAdjustment
  have hcond : ¬((s₀ :: rest).length = 0 ∨ |adj| < 1/1000) := by
    push_neg
    exact ⟨by simp, le_of_not_lt hadj⟩
  rw [if_neg hcond]
  simp only [hget]

lemma applyRA_sum (shares : List ParticipantShareDto) (adj : ℚ)
    (hne : shares ≠ []) (hcents : ∀ s ∈ shares, IsCents s.total)
    (hadjc : IsCents adj) :
    SplitCalculationService.sumTotals
        (SplitCalculationService.applyRoundingAdjustment shares adj) =
      SplitCalculationService.sumTotals shares - adj := by
  by_cases h : |adj| < 1/1000
  · have hz : adj = 0 :=
      SplitCalculationService.cents_eq_zero hadjc (le_of_lt h)
    have : SplitCalculationService.applyRoundingAdjustment shares adj = shares := by
      unfold SplitCalculationService.applyRoundingAdjustment
      rw [if_pos (Or.inr h)]
    rw [this, hz, sub_zero]
  · obtain ⟨i, s, _, hget, heq⟩ := applyRA_spec shares adj hne h
    rw [heq, SplitCalculationService.sumTotals_set _ hget]
    have hst : IsCents s.total := hcents s (List.get?_mem hget)
    have : SplitCalculationService.round (s.total - adj) = s.total - adj :=
      SplitCalculationService.round_cents_eq
        (SplitCalculationService.IsCents.sub hst hadjc)
    simp only [this]
    ring

lemma calculateSplit_ok_iff (dto : CalculateSplitDto)
    (r : SplitCalculationResultDto) :
    SplitCalculationService.calculateSplit dto = .ok r ↔
      SplitValidator.validate dto = .ok () ∧
      SplitValidator.validateResult dto
        (SplitCalculationService.sumTotals (SplitCalculationService.finalShares dto))
        (SplitCalculationService.adjustment dto) = .ok () ∧
      r = { splitType := dto.splitType
            originalSubtotal := dto.subtotal
            originalTax := dto.tax.getD 0
            originalTip := dto.tip.getD 0
            grandTotal := SplitCalculationService.round
              (SplitCalculationService.expectedTotal dto)
            shares := SplitCalculationService.finalShares dto
            roundingAdjustment := SplitCalculationService.adjustment dto } := by
  unfold SplitCalculationService.calculateSplit
  cases h1 : SplitValidator.validate dto with
  | error e => simp [h1]
  | ok u =>
    obtain rfl : u = () := rfl
    cases h2 : SplitValidator.validateResult dto
        (SplitCalculationService.sumTotals (SplitCalculationService.finalShares dto))
        (SplitCalculationService.adjustment dto) with
    | error e => simp [h2]
    | ok u2 =>
      obtain rfl : u2 = () := rfl
      simp [h2, eq_comm]

lemma list_map_set {α β : Type} (l : List α) (i : ℕ) (t : α) (f : α → β) :
    (l.set i t).map f = (l.map f).set i (f t) := by
  induction l generalizing i with
  | nil => simp
  | cons a rest ih =>
    cases i with
    | zero => simp
    | succ j => simp [ih]

lemma list_set_get_same {α : Type} {l : List α} {i : ℕ} {a : α}
    (h : l.get? i = some a) : l.set i a = l := by
  induction l generalizing i with
  | nil => simp
  | cons b rest ih =>
    cases i with
    | zero => injection h with h; rw [List.set, h]
    | succ j => simp only [List.get?] at h; simp [List.set, ih h]

lemma strategyShares_ids (dto : CalculateSplitDto) :
    (SplitCalculationService.strategyShares dto).map (fun s => s.participantId) =
      dto.participantIds := by
  rw [strategyShares_eq_map, List.map_map]
  have : ((fun s : ParticipantShareDto => s.participantId) ∘ shareFor dto) =
      fun pid => pid := by
    funext pid; simp [Function.comp, shareFor_participantId]
  rw [this, List.map_id']

lemma strategyShares_ne_nil {dto : CalculateSplitDto}
    (h : dto.participantIds ≠ []) :
    SplitCalculationService.strategyShares dto ≠ [] := by
  rw [strategyShares_eq_map]
  simpa using h

lemma strategyShares_cents (dto : CalculateSplitDto) :
    ∀ s ∈ SplitCalculationService.strategyShares dto, IsCents s.total := by
  intro s hs
  obtain ⟨pid, _, rfl⟩ := mem_strategyShares dto hs
  exact (shareFor_cents dto pid).2.2.2.1

lemma adjustment_isCents (dto : CalculateSplitDto) :
    IsCents (SplitCalculationService.adjustment dto) :=
  SplitCalculationService.round_isCents _

lemma finalShares_sum (dto : CalculateSplitDto) (h : dto.participantIds ≠ []) :
    SplitCalculationService.sumTotals (SplitCalculationService.finalShares dto) =
      SplitCalculationService.sumTotals (SplitCalculationService.strategyShares dto) -
        SplitCalculationService.adjustment dto := by
  unfold SplitCalculationService.finalShares
  split
  · exact applyRA_sum _ _ (strategyShares_ne_nil h) (strategyShares_cents dto)
      (adjustment_isCents dto)
  · rename_i hng
    have hz : SplitCalculationService.adjustment dto = 0 :=
      SplitCalculationService.cents_eq_zero (adjustment_isCents dto)
        (le_of_not_lt hng)
    rw [hz, sub_zero]

lemma drift_bound (dto : CalculateSplitDto) (h : dto.participantIds ≠ []) :
    |SplitCalculationService.sumTotals (SplitCalculationService.finalShares dto) -
      SplitCalculationService.expectedTotal dto| ≤ 1/200 := by
  rw [finalShares_sum dto h]
  set D := SplitCalculationService.sumTotals
    (SplitCalculationService.strategyShares dto) -
    SplitCalculationService.expectedTotal dto with hD
  have hadj : SplitCalculationService.adjustment dto =
      SplitCalculationService.round D := rfl
  rw [hadj]
  have h1 := SplitCalculationService.round_le D
  have h2 := SplitCalculationService.lt_round D
  rw [abs_le]
  constructor <;> [skip; skip] <;> linarith

lemma conservation_bound (dto : CalculateSplitDto)
    (h : dto.participantIds ≠ []) :
    |SplitCalculationService.sumTotals (SplitCalculationService.finalShares dto) -
      SplitCalculationService.round (SplitCalculationService.expectedTotal dto)| ≤
      1/100 := by
  have h1 := drift_bound dto h
  have h2 := SplitCalculationService.round_le
    (SplitCalculationService.expectedTotal dto)
  have h3 := SplitCalculationService.lt_round
    (SplitCalculationService.expectedTotal dto)
  rw [abs_le] at h1 ⊢
  constructor <;> linarith [h1.1, h1.2]

lemma validate_basic_ok {dto : CalculateSplitDto}
    (h : SplitValidator.validate dto = .ok ()) :
    SplitValidator.validateBasicRequirements dto = .ok () := by
  unfold SplitValidator.validate at h
  cases hb : SplitValidator.validateBasicRequirements dto with
  | error e => rw [hb] at h; exact absurd h (by simp)
  | ok u => cases u; rfl

lemma basic_ok_ne_nil {dto : CalculateSplitDto}
    (h : SplitValidator.validateBasicRequirements dto = .ok ()) :
    dto.participantIds ≠ [] := by
  intro hnil
  rw [SplitValidator.validateBasicRequirements, hnil] at h
  simp at h

lemma validate_ok_ne_nil {dto : CalculateSplitDto}
    (h : SplitValidator.validate dto = .ok ()) : dto.participantIds ≠ [] :=
  basic_ok_ne_nil (validate_basic_ok h)

lemma mem_finalShares (dto : CalculateSplitDto) {s : ParticipantShareDto}
    (hs : s ∈ SplitCalculationService.finalShares dto) :
    ∃ pid ∈ dto.participantIds, s.participantId = pid ∧
      s.subtotal = (shareFor dto pid).subtotal ∧
      s.tax = (shareFor dto pid).tax ∧
      s.tip = (shareFor dto pid).tip ∧
      s.items = (shareFor dto pid).items ∧
      (s.total = (shareFor dto pid).total ∨
        s.total = (shareFor dto pid).total -
          SplitCalculationService.adjustment dto) := by
  have hbase : ∀ t ∈ SplitCalculationService.strategyShares dto,
      ∃ pid ∈ dto.participantIds, t.participantId = pid ∧
        t.subtotal = (shareFor dto pid).subtotal ∧
        t.tax = (shareFor dto pid).tax ∧
        t.tip = (shareFor dto pid).tip ∧
        t.items = (shareFor dto pid).items ∧
        t.total = (shareFor dto pid).total := by
    intro t ht
    obtain ⟨pid, hpid, rfl⟩ := mem_strategyShares dto ht
    exact ⟨pid, hpid, rfl, rfl, rfl, rfl, rfl, rfl⟩
  unfold SplitCalculationService.finalShares at hs
  by_cases hadj : 1/1000 < |SplitCalculationService.adjustment dto|
  · rw [if_pos hadj] at hs
    by_cases hnil : SplitCalculationService.strategyShares dto = []
    · rw [hnil] at hs
      unfold SplitCalculationService.applyRoundingAdjustment at hs
      simp at hs
    · obtain ⟨i, s₀, _, hget, heq⟩ := applyRA_spec _ _ hnil (not_lt.mpr (le_of_lt hadj))
      rw [heq] at hs
      rcases List.mem_or_eq_of_mem_set hs with hmem | rfl
      · obtain ⟨pid, hpid, h1, h2, h3, h4, h5, h6⟩ := hbase s hmem
        exact ⟨pid, hpid, h1, h2, h3, h4, h5, Or.inl h6⟩
      · obtain ⟨pid, hpid, h1, h2, h3, h4, h5, h6⟩ :=
          hbase s₀ (List.get?_mem hget)
        refine ⟨pid, hpid, h1, h2, h3, h4, h5, Or.inr ?_⟩
        have hc : IsCents s₀.total := by
          rw [h6]; exact (shareFor_cents dto pid).2.2.2.1
        have hre : SplitCalculationService.round
            (s₀.total - SplitCalculationService.adjustment dto) =
            s₀.total - SplitCalculationService.adjustment dto :=
          SplitCalculationService.round_cents_eq
            (SplitCalculationService.IsCents.sub hc (adjustment_isCents dto))
        rw [h6] at hre
        show SplitCalculationService.round
          (s₀.total - SplitCalculationService.adjustment dto) =
          (shareFor dto pid).total - SplitCalculationService.adjustment dto
        rw [h6]
        exact hre
  · rw [if_neg hadj] at hs
    obtain ⟨pid, hpid, h1, h2, h3, h4, h5, h6⟩ := hbase s hs
    exact ⟨pid, hpid, h1, h2, h3, h4, h5, Or.inl h6⟩

lemma finalShares_ids (dto : CalculateSplitDto) :
    (SplitCalculationService.finalShares dto).map (fun s => s.participantId) =
      dto.participantIds := by
  unfold SplitCalculationService.finalShares
  split
  · rename_i hadj
    by_cases hnil : SplitCalculationService.strategyShares dto = []
    · have hpids : dto.participantIds = [] := by
        have h := strategyShares_ids dto
        rw [hnil] at h
        simpa using h.symm
      rw [hnil, hpids]
      simp [SplitCalculationService.applyRoundingAdjustment]
    · obtain ⟨i, s₀, _, hget, heq⟩ :=
        applyRA_spec _ _ hnil (not_lt.mpr (le_of_lt hadj))
      rw [heq, list_map_set]
      have hmap : ((SplitCalculationService.strategyShares dto).map
          (fun s => s.participantId)).get? i = some s₀.participantId := by
        rw [List.get?_map, hget]; rfl
      rw [list_set_get_same hmap]
      exact strategyShares_ids dto
  · exact strategyShares_ids dto

lemma dedup_eval_1 (a : String) : ([a] : List String).dedup = [a] := by
  rw [List.dedup_cons_of_not_mem (by simp), List.dedup_nil]

lemma dedup_eval_2 (a b : String) (h : a ≠ b) :
    ([a, b] : List String).dedup = [a, b] := by
  rw [List.dedup_cons_of_not_mem (by simp [h]),
    List.dedup_cons_of_not_mem (by simp), List.dedup_nil]

lemma dedup_eval_3 (a b c : String) (hab : a ≠ b) (hac : a ≠ c) (hbc : b ≠ c) :
    ([a, b, c] : List String).dedup = [a, b, c] := by
  rw [List.dedup_cons_of_not_mem (by simp [hab, hac]),
    List.dedup_cons_of_not_mem (by simp [hbc]),
    List.dedup_cons_of_not_mem (by simp), List.dedup_nil]

lemma trim_A : ("A" : String).trim = "A" := by
  simp [String.trim, Substring.trim, String.toSubstring, Substring.toString,
    Substring.takeWhileAux, Substring.takeRightWhileAux, String.endPos,
    String.utf8ByteSize, String.utf8ByteSize.go, Char.utf8Size, String.get,
    String.utf8GetAux, String.prev, String.utf8PrevAux, Char.isWhitespace,
    String.extract, String.extract.go₁, String.extract.go₂, String.next,
    String.Pos.ext_iff]

lemma trim_B : ("B" : String).trim = "B" := by
  simp [String.trim, Substring.trim, String.toSubstring, Substring.toString,
    Substring.takeWhileAux, Substring.takeRightWhileAux, String.endPos,
    String.utf8ByteSize, String.utf8ByteSize.go, Char.utf8Size, String.get,
    String.utf8GetAux, String.prev, String.utf8PrevAux, Char.isWhitespace,
    String.extract, String.extract.go₁, String.extract.go₂, String.next,
    String.Pos.ext_iff]

lemma eval_validate_S1 : SplitValidator.validate dtoScenario1 = .ok () := by
  have hd : (["user1", "user2"] : List String).dedup = ["user1", "user2"] :=
    dedup_eval_2 _ _ (by decide)
  norm_num [SplitValidator.validate, SplitValidator.validateBasicRequirements,
    SplitValidator.validateEqualSplit, dtoScenario1, optNeg, hd]

lemma eval_split_S1 :
    SplitCalculationService.calculateSplit dtoScenario1 = .ok resScenario1 := by
  have hd : (["user1", "user2"] : List String).dedup = ["user1", "user2"] :=
    dedup_eval_2 _ _ (by decide)
  have r1 : SplitCalculationService.round (100/2) = ((5000 : ℤ) : ℚ)/100 :=
    SplitCalculationService.round_concrete _ 5000 (by norm_num) (by norm_num)
  have r2 : SplitCalculationService.round (10 * (50/100)) = ((500 : ℤ) : ℚ)/100 :=
    SplitCalculationService.round_concrete _ 500 (by norm_num) (by norm_num)
  have r3 : SplitCalculationService.round (15/2) = ((750 : ℤ) : ℚ)/100 :=
    SplitCalculationService.round_concrete _ 750 (by norm_num) (by norm_num)
  have r4 : SplitCalculationService.round (50 + 5 + 15/2) = ((6250 : ℤ) : ℚ)/100 :=
    SplitCalculationService.round_concrete _ 6250 (by norm_num) (by norm_num)
  have r5 : SplitCalculationService.round 0 = ((0 : ℤ) : ℚ)/100 :=
    SplitCalculationService.round_concrete _ 0 (by norm_num) (by norm_num)
  have r6 : SplitCalculationService.round 125 = ((12500 : ℤ) : ℚ)/100 :=
    SplitCalculationService.round_concrete _ 12500 (by norm_num) (by norm_num)
  norm_num at r1 r2 r3 r4 r5 r6
  norm_num [SplitCalculationService.calculateSplit, SplitValidator.validate,
    SplitValidator.validateBasicRequirements, SplitValidator.validateEqualSplit,
    SplitValidator.validateResult, dtoScenario1, optNeg, hd,
    SplitCalculationService.finalShares, SplitCalculationService.adjustment,
    SplitCalculationService.strategyShares, SplitCalculationService.sumTotals,
    SplitCalculationService.expectedTotal,
    SplitCalculationService.calculateEqualSplit,
    SplitCalculationService.distributeTax, SplitCalculationService.distributeTip,
    r1, r2, r3, r4, r5, r6, resScenario1, shareScenario1]

lemma eval_split_E3 :
    SplitCalculationService.calculateSplit dtoEqual3 = .ok resEqual3 := by
  have hd : (["user1", "user2", "user3"] : List String).dedup =
      ["user1", "user2", "user3"] := dedup_eval_3 _ _ _ (by decide) (by decide) (by decide)
  have r1 : SplitCalculationService.round (100/3) = ((3333 : ℤ) : ℚ)/100 :=
    SplitCalculationService.round_concrete _ 3333 (by norm_num) (by norm_num)
  have r2 : SplitCalculationService.round (3333/100) = ((3333 : ℤ) : ℚ)/100 :=
    SplitCalculationService.round_concrete _ 3333 (by norm_num) (by norm_num)
  have r3 : SplitCalculationService.round (-(1/100)) = ((-1 : ℤ) : ℚ)/100 :=
    SplitCalculationService.round_concrete _ (-1) (by norm_num) (by norm_num)
  have r4 : SplitCalculationService.round (1667/50) = ((3334 : ℤ) : ℚ)/100 :=
    SplitCalculationService.round_concrete _ 3334 (by norm_num) (by norm_num)
  have r5 : SplitCalculationService.round 100 = ((10000 : ℤ) : ℚ)/100 :=
    SplitCalculationService.round_concrete _ 10000 (by norm_num) (by norm_num)
  have habs : |(1 : ℚ)/100| = 1/100 := abs_of_pos (by norm_num)
  norm_num at r1 r2 r3 r4 r5
  norm_num [SplitCalculationService.calculateSplit, SplitValidator.validate,
    SplitValidator.validateBasicRequirements, SplitValidator.validateEqualSplit,
    SplitValidator.validateResult, dtoEqual3, optNeg, hd, habs,
    SplitCalculationService.finalShares, SplitCalculationService.adjustment,
    SplitCalculationService.strategyShares, SplitCalculationService.sumTotals,
    SplitCalculationService.expectedTotal,
    SplitCalculationService.calculateEqualSplit,
    SplitCalculationService.applyRoundingAdjustment,
    SplitCalculationService.maxTotalIndexAux, SplitCalculationService.headTotal,
    SplitCalculationService.distributeTax, SplitCalculationService.distributeTip,
    r1, r2, r3, r4, r5, resEqual3, shareEqual3, shareEqual3Adj]

lemma eval_split_E3P :
    SplitCalculationService.calculateSplit dtoEqual3P = .ok resEqual3P := by
  have hd : (["user2", "user1", "user3"] : List String).dedup =
      ["user2", "user1", "user3"] := dedup_eval_3 _ _ _ (by decide) (by decide) (by decide)
  have r1 : SplitCalculationService.round (100/3) = ((3333 : ℤ) : ℚ)/100 :=
    SplitCalculationService.round_concrete _ 3333 (by norm_num) (by norm_num)
  have r2 : SplitCalculationService.round (3333/100) = ((3333 : ℤ) : ℚ)/100 :=
    SplitCalculationService.round_concrete _ 3333 (by norm_num) (by norm_num)
  have r3 : SplitCalculationService.round (-(1/100)) = ((-1 : ℤ) : ℚ)/100 :=
    SplitCalculationService.round_concrete _ (-1) (by norm_num) (by norm_num)
  have r4 : SplitCalculationService.round (1667/50) = ((3334 : ℤ) : ℚ)/100 :=
    SplitCalculationService.round_concrete _ 3334 (by norm_num) (by norm_num)
  have r5 : SplitCalculationService.round 100 = ((10000 : ℤ) : ℚ)/100 :=
    SplitCalculationService.round_concrete _ 10000 (by norm_num) (by norm_num)
  have habs : |(1 : ℚ)/100| = 1/100 := abs_of_pos (by norm_num)
  norm_num at r1 r2 r3 r4 r5
  norm_num [SplitCalculationService.calculateSplit, SplitValidator.validate,
    SplitValidator.validateBasicRequirements, SplitValidator.validateEqualSplit,
    SplitValidator.validateResult, dtoEqual3P, optNeg, hd, habs,
    SplitCalculationService.finalShares, SplitCalculationService.adjustment,
    SplitCalculationService.strategyShares, SplitCalculationService.sumTotals,
    SplitCalculationService.expectedTotal,
    SplitCalculationService.calculateEqualSplit,
    SplitCalculationService.applyRoundingAdjustment,
    SplitCalculationService.maxTotalIndexAux, SplitCalculationService.headTotal,
    SplitCalculationService.distributeTax, SplitCalculationService.distributeTip,
    r1, r2, r3, r4, r5, resEqual3P, shareEqual3, shareEqual3Adj]

lemma eval_validate_PD : SplitValidator.validate dtoPercDrift = .ok () := by
  have hd : (["u1", "u2"] : List String).dedup = ["u1", "u2"] :=
    dedup_eval_2 _ _ (by decide)
  have hne : ("u1" : String) ≠ "u2" := by decide
  have hne2 : ("u2" : String) ≠ "u1" := by decide
  have habs : |(1 : ℚ)/100| = 1/100 := abs_of_pos (by norm_num)
  norm_num [SplitValidator.validate, SplitValidator.validateBasicRequirements,
    SplitValidator.validatePercentageSplit,
    SplitValidator.checkPercentageEntries, SplitValidator.checkCoverage,
    dtoPercDrift, optNeg, hd, habs, hne, hne2, mapHas, mapGet, mapSet]

lemma eval_split_PD : SplitCalculationService.calculateSplit dtoPercDrift =
    .error "Rounding adjustment exceeds reasonable threshold" := by
  have hd : (["u1", "u2"] : List String).dedup = ["u1", "u2"] :=
    dedup_eval_2 _ _ (by decide)
  have habs : |(1 : ℚ)/100| = 1/100 := abs_of_pos (by norm_num)
  have hne : ("u1" : String) ≠ "u2" := by decide
  have hne2 : ("u2" : String) ≠ "u1" := by decide
  have habs3 : |(3 : ℚ)/100| = 3/100 := abs_of_pos (by norm_num)
  have r1 : SplitCalculationService.round 150 = ((15000 : ℤ) : ℚ)/100 :=
    SplitCalculationService.round_concrete _ 15000 (by norm_num) (by norm_num)
  have r2 : SplitCalculationService.round (14997/100) = ((14997 : ℤ) : ℚ)/100 :=
    SplitCalculationService.round_concrete _ 14997 (by norm_num) (by norm_num)
  have r3 : SplitCalculationService.round (-(3/100)) = ((-3 : ℤ) : ℚ)/100 :=
    SplitCalculationService.round_concrete _ (-3) (by norm_num) (by norm_num)
  have r4 : SplitCalculationService.round (15003/100) = ((15003 : ℤ) : ℚ)/100 :=
    SplitCalculationService.round_concrete _ 15003 (by norm_num) (by norm_num)
  norm_num at r1 r2 r3 r4
  norm_num [SplitCalculationService.calculateSplit, SplitValidator.validate,
    SplitValidator.validateBasicRequirements,
    SplitValidator.validatePercentageSplit,
    SplitValidator.checkPercentageEntries, SplitValidator.checkCoverage,
    SplitValidator.validateResult, dtoPercDrift, optNeg, hd, habs, habs3,
    hne, hne2, mapHas, mapGet, mapSet,
    SplitCalculationService.finalShares, SplitCalculationService.adjustment,
    SplitCalculationService.strategyShares, SplitCalculationService.sumTotals,
    SplitCalculationService.expectedTotal,
    SplitCalculationService.calculatePercentageSplit,
    SplitCalculationService.buildPercentageMap,
    SplitCalculationService.applyRoundingAdjustment,
    SplitCalculationService.maxTotalIndexAux, SplitCalculationService.headTotal,
    SplitCalculationService.distributeTax, SplitCalculationService.distributeTip,
    r1, r2, r3, r4]

lemma eval_split_RS : SplitCalculationService.calculateSplit dtoRawSubtotal =
    .ok resRawSubtotal := by
  have hd : (["u1"] : List String).dedup = ["u1"] := dedup_eval_1 _
  have habs : |(1 : ℚ)/100| = 1/100 := abs_of_pos (by norm_num)
  have habs2 : |(1 : ℚ)/200| = 1/200 := abs_of_pos (by norm_num)
  have r1 : SplitCalculationService.round (2001/200) = ((1001 : ℤ) : ℚ)/100 :=
    SplitCalculationService.round_concrete _ 1001 (by norm_num) (by norm_num)
  have r2 : SplitCalculationService.round (1001/100) = ((1001 : ℤ) : ℚ)/100 :=
    SplitCalculationService.round_concrete _ 1001 (by norm_num) (by norm_num)
  have r3 : SplitCalculationService.round (1/200) = ((1 : ℤ) : ℚ)/100 :=
    SplitCalculationService.round_concrete _ 1 (by norm_num) (by norm_num)
  have r4 : SplitCalculationService.round 10 = ((1000 : ℤ) : ℚ)/100 :=
    SplitCalculationService.round_concrete _ 1000 (by norm_num) (by norm_num)
  norm_num at r1 r2 r3 r4
  norm_num [SplitCalculationService.calculateSplit, SplitValidator.validate,
    SplitValidator.validateBasicRequirements, SplitValidator.validateEqualSplit,
    SplitValidator.validateResult, dtoRawSubtotal, optNeg, hd, habs, habs2,
    SplitCalculationService.finalShares, SplitCalculationService.adjustment,
    SplitCalculationService.strategyShares, SplitCalculationService.sumTotals,
    SplitCalculationService.expectedTotal,
    SplitCalculationService.calculateEqualSplit,
    SplitCalculationService.applyRoundingAdjustment,
    SplitCalculationService.maxTotalIndexAux, SplitCalculationService.headTotal,
    SplitCalculationService.distributeTax, SplitCalculationService.distributeTip,
    r1, r2, r3, r4, resRawSubtotal]

lemma eval_split_IT : SplitCalculationService.calculateSplit dtoItemized =
    .ok resItemized := by
  have hd : (["u1", "u2"] : List String).dedup = ["u1", "u2"] :=
    dedup_eval_2 _ _ (by decide)
  have hd1 : (["u1"] : List String).dedup = ["u1"] := dedup_eval_1 _
  have hne : ("u1" : String) ≠ "u2" := by decide
  have hne2 : ("u2" : String) ≠ "u1" := by decide
  have hd2 : (["u2"] : List String).dedup = ["u2"] := dedup_eval_1 _
  have hA : ("A" : String) ≠ "" := by decide
  have hB : ("B" : String) ≠ "" := by decide
  have htip : TipDistributionType.proportional ≠ TipDistributionType.equal := by decide
  have r1 : SplitCalculationService.round 30 = ((3000 : ℤ) : ℚ)/100 :=
    SplitCalculationService.round_concrete _ 3000 (by norm_num) (by norm_num)
  have r2 : SplitCalculationService.round 3 = ((300 : ℤ) : ℚ)/100 :=
    SplitCalculationService.round_concrete _ 300 (by norm_num) (by norm_num)
  have r3 : SplitCalculationService.round 6 = ((600 : ℤ) : ℚ)/100 :=
    SplitCalculationService.round_concrete _ 600 (by norm_num) (by norm_num)
  have r4 : SplitCalculationService.round 39 = ((3900 : ℤ) : ℚ)/100 :=
    SplitCalculationService.round_concrete _ 3900 (by norm_num) (by norm_num)
  have r5 : SplitCalculationService.round 20 = ((2000 : ℤ) : ℚ)/100 :=
    SplitCalculationService.round_concrete _ 2000 (by norm_num) (by norm_num)
  have r6 : SplitCalculationService.round 2 = ((200 : ℤ) : ℚ)/100 :=
    SplitCalculationService.round_concrete _ 200 (by norm_num) (by norm_num)
  have r7 : SplitCalculationService.round 4 = ((400 : ℤ) : ℚ)/100 :=
    SplitCalculationService.round_concrete _ 400 (by norm_num) (by norm_num)
  have r8 : SplitCalculationService.round 26 = ((2600 : ℤ) : ℚ)/100 :=
    SplitCalculationService.round_concrete _ 2600 (by norm_num) (by norm_num)
  have r9 : SplitCalculationService.round 0 = ((0 : ℤ) : ℚ)/100 :=
    SplitCalculationService.round_concrete _ 0 (by norm_num) (by norm_num)
  have r10 : SplitCalculationService.round 65 = ((6500 : ℤ) : ℚ)/100 :=
    SplitCalculationService.round_concrete _ 6500 (by norm_num) (by norm_num)
  norm_num at r1 r2 r3 r4 r5 r6 r7 r8 r9 r10
  norm_num [SplitCalculationService.calculateSplit, SplitValidator.validate,
    SplitValidator.validateBasicRequirements,
    SplitValidator.validateItemizedSplit, SplitValidator.validateItems,
    SplitValidator.validateItem, SplitValidator.validateResult,
    dtoItemized, optNeg, hd, hd1, hd2, trim_A, trim_B,
    hne, hne2, hA, hB, htip, mapHas, mapGet, mapSet,
    SplitCalculationService.finalShares, SplitCalculationService.adjustment,
    SplitCalculationService.strategyShares, SplitCalculationService.sumTotals,
    SplitCalculationService.expectedTotal,
    SplitCalculationService.calculateItemizedSplit,
    SplitCalculationService.initMaps, SplitCalculationService.itemStep,
    SplitCalculationService.distributeTax, SplitCalculationService.distributeTip,
    r1, r2, r3, r4, r5, r6, r7, r8, r9, r10, resItemized, shareItemized1,
    shareItemized2]

lemma eval_basic_PP :
    SplitValidator.validateBasicRequirements dtoPercPayload = .ok () := by
  have hd : (["u1", "u2"] : List String).dedup = ["u1", "u2"] :=
    dedup_eval_2 _ _ (by decide)
  norm_num [SplitValidator.validateBasicRequirements, dtoPercPayload, optNeg, hd]

lemma eval_perc_PP : SplitValidator.validatePercentageSplit dtoPercPayload =
    .error "Percentage split should not include items or custom amounts" := by
  norm_num [SplitValidator.validatePercentageSplit, dtoPercPayload]

lemma eval_specs_PP : ¬ (percMissingSpec dtoPercPayload ∨
    percForeignSpec dtoPercPayload ∨ percDupSpec dtoPercPayload ∨
    percRangeSpec dtoPercPayload ∨ percSumSpec dtoPercPayload) := by
  norm_num [percMissingSpec, percForeignSpec, percDupSpec, percRangeSpec,
    percSumSpec, dtoPercPayload, List.nodup_cons,
    show ("u1" : String) ≠ "u2" from by decide]

lemma eval_basic_PG :
    SplitValidator.validateBasicRequirements dtoPercGood = .ok () := by
  have hd : (["u1", "u2"] : List String).dedup = ["u1", "u2"] :=
    dedup_eval_2 _ _ (by decide)
  norm_num [SplitValidator.validateBasicRequirements, dtoPercGood, optNeg, hd]

lemma eval_perc_PG :
    SplitValidator.validatePercentageSplit dtoPercGood = .ok () := by
  have hne : ("u1" : String) ≠ "u2" := by decide
  have hne2 : ("u2" : String) ≠ "u1" := by decide
  norm_num [hne, hne2, SplitValidator.validatePercentageSplit,
    SplitValidator.checkPercentageEntries, SplitValidator.checkCoverage,
    dtoPercGood, mapHas, mapGet, mapSet]

lemma eval_specs_PG : ¬ (percMissingSpec dtoPercGood ∨
    percForeignSpec dtoPercGood ∨ percDupSpec dtoPercGood ∨
    percRangeSpec dtoPercGood ∨ percSumSpec dtoPercGood) := by
  norm_num [percMissingSpec, percForeignSpec, percDupSpec, percRangeSpec,
    percSumSpec, dtoPercGood, List.nodup_cons,
    show ("u1" : String) ≠ "u2" from by decide]

lemma distributeTip_eq_spec (dto : CalculateSplitDto) (a : ℚ) :
    SplitCalculationService.distributeTip a dto.subtotal (dto.tip.getD 0)
      (dto.tipDistribution.getD
        (if dto.splitType = SplitType.equal then TipDistributionType.equal
         else TipDistributionType.proportional))
      (dto.participantIds.length : ℚ) = tipShareSpec dto a := by
  simp only [SplitCalculationService.distributeTip, tipShareSpec]
  split_ifs <;>
    simp_all [SplitCalculationService.round_zero, mul_div_assoc]

lemma distributeTax_eq_formula (a b t : ℚ) :
    SplitCalculationService.distributeTax a b t =
      SplitCalculationService.round (t * a / b) := by
  unfold SplitCalculationService.distributeTax
  split
  · rename_i h
    rcases h with h | h
    · rw [h, zero_mul, zero_div, SplitCalculationService.round_zero]
    · rw [h, div_zero, SplitCalculationService.round_zero]
  · rw [mul_div_assoc]

lemma distributeTax_zero {a b t : ℚ} (h : t = 0 ∨ b = 0) :
    SplitCalculationService.distributeTax a b t = 0 := by
  unfold SplitCalculationService.distributeTax
  rw [if_pos h]

lemma distributeTax_approx (a b t : ℚ) :
    |SplitCalculationService.distributeTax a b t - t * a / b| ≤ 1/200 := by
  unfold SplitCalculationService.distributeTax
  split
  · rename_i h
    rcases h with h | h
    · rw [h]; norm_num
    · rw [h, div_zero]; norm_num
  · rw [mul_div_assoc]
    set x := t * (a / b)
    have h1 := SplitCalculationService.round_le x
    have h2 := SplitCalculationService.lt_round x
    rw [abs_le]
    constructor <;> linarith

lemma validateResult_err {dto : CalculateSplitDto} {ct adj : ℚ} {e : String}
    (hfirst : ¬ (1/100 < |ct - (dto.subtotal + dto.tax.getD 0 + dto.tip.getD 0)|))
    (h : SplitValidator.validateResult dto ct adj = .error e) :
    e = "Rounding adjustment exceeds reasonable threshold" := by
  unfold SplitValidator.validateResult at h
  rw [if_neg hfirst] at h
  split at h
  · injection h with h; exact h.symm
  · exact absurd h (by simp)

lemma calculateSplit_error {dto : CalculateSplitDto} {e : String}
    (hv : SplitValidator.validate dto = .ok ())
    (h : SplitCalculationService.calculateSplit dto = .error e) :
    SplitValidator.validateResult dto
      (SplitCalculationService.sumTotals (SplitCalculationService.finalShares dto))
      (SplitCalculationService.adjustment dto) = .error e := by
  unfold SplitCalculationService.calculateSplit at h
  rw [hv] at h
  cases hr : SplitValidator.validateResult dto
      (SplitCalculationService.sumTotals (SplitCalculationService.finalShares dto))
      (SplitCalculationService.adjustment dto) with
  | error e2 => rw [hr] at h; injection h with h; rw [h]
  | ok u => rw [hr] at h; exact absurd h (by simp)

/-- Claim C1, corrected.  The half that holds: whenever calculateSplit returns
a result, the sum of the share totals is within 0.01 of the rounded expected
total; and the only error a precondition-passing request can hit is the result
validator's adjustment-threshold check.  The original claim also asserted that
calculateSplit never raises on such requests, which is false (see the
counterexample). -/
theorem claim_C1_conservation (dto : CalculateSplitDto)
    (hv : SplitValidator.validate dto = .ok ()) :
    (∀ e, SplitCalculationService.calculateSplit dto = .error e →
      e = "Rounding adjustment exceeds reasonable threshold") ∧
    (∀ r, SplitCalculationService.calculateSplit dto = .ok r →
      |SplitCalculationService.sumTotals r.shares -
        SplitCalculationService.round (SplitCalculationService.expectedTotal dto)|
        ≤ 1/100) := by
  have hne : dto.participantIds ≠ [] := validate_ok_ne_nil hv
  have hfirst : ¬ (1/100 <
      |SplitCalculationService.sumTotals (SplitCalculationService.finalShares dto) -
        (dto.subtotal + dto.tax.getD 0 + dto.tip.getD 0)|) := by
    rw [not_lt]
    have hb := drift_bound dto hne
    have he : SplitCalculationService.expectedTotal dto =
        dto.subtotal + dto.tax.getD 0 + dto.tip.getD 0 := rfl
    rw [he] at hb
    linarith
  constructor
  · intro e he
    exact validateResult_err hfirst (calculateSplit_error hv he)
  · intro r hr
    obtain ⟨-, -, rfl⟩ := (calculateSplit_ok_iff dto r).mp hr
    exact conservation_bound dto hne

/-- Claim C1 counterexample: a percentage request that passes every
precondition check (percentages sum to 99.99, within tolerance) on which
calculateSplit raises instead of returning a result. -/
theorem claim_C1_counterexample :
    SplitValidator.validate dtoPercDrift = .ok () ∧
    SplitCalculationService.calculateSplit dtoPercDrift =
      .error "Rounding adjustment exceeds reasonable threshold" :=
  ⟨eval_validate_PD, eval_split_PD⟩

/-- Claim C1 witness: the conservation bound instantiated on the equal-split
scenario with subtotal 100, tax 10, tip 15 and two participants. -/
theorem claim_C1_witness :
    |SplitCalculationService.sumTotals resScenario1.shares -
      SplitCalculationService.round
        (SplitCalculationService.expectedTotal dtoScenario1)| ≤ 1/100 :=
  (claim_C1_conservation dtoScenario1 eval_validate_S1).2 resScenario1 eval_split_S1

/-- Claim C2, corrected.  Every returned share satisfies
total = subtotal + tax + tip, except that the one share selected for the
rounding correction instead satisfies
total = subtotal + tax + tip - roundingAdjustment.  The original claim
asserted the plain identity for every share including the corrected one,
which is false whenever a nonzero correction is applied (see the
counterexample). -/
theorem claim_C2_share_total (dto : CalculateSplitDto)
    (r : SplitCalculationResultDto)
    (h : SplitCalculationService.calculateSplit dto = .ok r) :
    ∀ s ∈ r.shares, s.total = s.subtotal + s.tax + s.tip ∨
      s.total = s.subtotal + s.tax + s.tip - r.roundingAdjustment := by
  obtain ⟨-, -, rfl⟩ := (calculateSplit_ok_iff dto r).mp h
  intro s hs
  obtain ⟨pid, -, -, h2, h3, h4, -, h6⟩ := mem_finalShares dto hs
  have htot := (shareFor_cents dto pid).2.2.2.2
  rcases h6 with h6 | h6
  · left; rw [h6, htot, h2, h3, h4]
  · right
    show s.total = s.subtotal + s.tax + s.tip - SplitCalculationService.adjustment dto
    rw [h6, htot, h2, h3, h4]

/-- Claim C2 counterexample: in the three-way equal split of 100 the corrected
share has total 33.34 but subtotal + tax + tip = 33.33. -/
theorem claim_C2_counterexample :
    SplitCalculationService.calculateSplit dtoEqual3 = .ok resEqual3 ∧
    ¬ (∀ s ∈ resEqual3.shares, s.total = s.subtotal + s.tax + s.tip) := by
  refine ⟨eval_split_E3, fun hall => ?_⟩
  have := hall (shareEqual3Adj "user1") (by simp [resEqual3])
  norm_num [shareEqual3Adj] at this

/-- Claim C2 witness: the disjunction instantiated on the corrected share of
the three-way equal split. -/
theorem claim_C2_witness :
    (shareEqual3Adj "user1").total = (shareEqual3Adj "user1").subtotal +
        (shareEqual3Adj "user1").tax + (shareEqual3Adj "user1").tip ∨
      (shareEqual3Adj "user1").total = (shareEqual3Adj "user1").subtotal +
        (shareEqual3Adj "user1").tax + (shareEqual3Adj "user1").tip -
        resEqual3.roundingAdjustment :=
  claim_C2_share_total dtoEqual3 resEqual3 eval_split_E3
    (shareEqual3Adj "user1") (by simp [resEqual3])

/-- Claim C3, corrected.  The rounding helper maps v to the unique whole
number of cents in the half-open window from v - 0.005 (exclusive) to
v + 0.005 (inclusive): ties round toward positive infinity (JavaScript
Math.round), which for negative half-cent values rounds toward zero, not away
from zero as the original claim stated (see the counterexample). -/
theorem claim_C3_round_half_up (v : ℚ) :
    (∃ k : ℤ, SplitCalculationService.round v = (k : ℚ)/100) ∧
    (v - 1/200 < SplitCalculationService.round v ∧
      SplitCalculationService.round v ≤ v + 1/200) ∧
    (∀ q : ℚ, (∃ k : ℤ, q = (k : ℚ)/100) → v - 1/200 < q → q ≤ v + 1/200 →
      q = SplitCalculationService.round v) := by
  refine ⟨SplitCalculationService.round_isCents v,
    ⟨SplitCalculationService.lt_round v, SplitCalculationService.round_le v⟩, ?_⟩
  rintro q ⟨k, rfl⟩ hlo hhi
  have hk : ⌊v * 100 + 1/2⌋ = k := by
    apply Int.floor_eq_iff.mpr
    constructor
    · linarith
    · linarith
  unfold SplitCalculationService.round
  rw [hk]

/-- Claim C3 counterexample: at v = -0.005 the implementation returns 0
(toward positive infinity) while the claimed away-from-zero formula gives
-0.01. -/
theorem claim_C3_counterexample :
    SplitCalculationService.round (-1/200) = 0 ∧
    roundHalfAwaySpec (-1/200) = -(1/100) ∧
    SplitCalculationService.round (-1/200) ≠ roundHalfAwaySpec (-1/200) := by
  have h0 : SplitCalculationService.round (-1/200) = ((0 : ℤ) : ℚ)/100 :=
    SplitCalculationService.round_concrete _ 0 (by norm_num) (by norm_num)
  rw [show (((0 : ℤ) : ℚ))/100 = 0 by norm_num] at h0
  have habs : |(-1 : ℚ)/200| = 1/200 := by rw [abs_of_neg (by norm_num)]; norm_num
  have hf : ⌊(1 : ℚ)⌋ = 1 := Int.floor_one
  have hspec : roundHalfAwaySpec (-1/200) = -(1/100) := by
    unfold roundHalfAwaySpec
    rw [if_pos (by norm_num : (-1 : ℚ)/200 < 0), habs,
      show (1 : ℚ)/200 * 100 + 1/2 = 1 by norm_num, hf]
    norm_num
  exact ⟨h0, hspec, by rw [h0, hspec]; norm_num⟩

/-- Claim C3 witness: the uniqueness clause applied at v = -0.005 with the
candidate 0. -/
theorem claim_C3_witness : (0 : ℚ) = SplitCalculationService.round (-1/200) :=
  (claim_C3_round_half_up (-1/200)).2.2 0 ⟨0, by norm_num⟩ (by norm_num)
    (by norm_num)

/-- Claim C4, confirmed.  The rounding reconciliation runs exactly when the
absolute rounding adjustment exceeds 0.001: in that case the returned shares
are the strategy shares with the total of the first share holding the largest
total (first occurrence wins on ties) replaced by
round(total - roundingAdjustment), every other field untouched; otherwise the
strategy shares are returned unchanged. -/
theorem claim_C4_adjustment (dto : CalculateSplitDto)
    (r : SplitCalculationResultDto)
    (h : SplitCalculationService.calculateSplit dto = .ok r) :
    r.roundingAdjustment = SplitCalculationService.adjustment dto ∧
    (¬ 1/1000 < |SplitCalculationService.adjustment dto| →
      r.shares = SplitCalculationService.strategyShares dto) ∧
    (1/1000 < |SplitCalculationService.adjustment dto| →
      ∃ i s, IsFirstMaxIdx (SplitCalculationService.strategyShares dto) i ∧
        (SplitCalculationService.strategyShares dto).get? i = some s ∧
        r.shares = (SplitCalculationService.strategyShares dto).set i
          { s with
            total := SplitCalculationService.round (s.total - SplitCalculationService.adjustment dto) }) := by
  obtain ⟨hv, -, rfl⟩ := (calculateSplit_ok_iff dto r).mp h
  refine ⟨rfl, ?_, ?_⟩
  · intro hng
    show SplitCalculationService.finalShares dto = _
    unfold SplitCalculationService.finalShares
    rw [if_neg hng]
  · intro hadj
    have hne := strategyShares_ne_nil (validate_ok_ne_nil hv)
    obtain ⟨i, s, hmax, hget, heq⟩ :=
      applyRA_spec _ _ hne (not_lt.mpr (le_of_lt hadj))
    refine ⟨i, s, hmax, hget, ?_⟩
    show SplitCalculationService.finalShares dto = _
    unfold SplitCalculationService.finalShares
    rw [if_pos hadj, heq]

/-- Claim C4 witness: instantiated on the three-way equal split, whose
adjustment is one cent. -/
theorem claim_C4_witness :
    resEqual3.roundingAdjustment = SplitCalculationService.adjustment dtoEqual3 :=
  (claim_C4_adjustment dtoEqual3 resEqual3 eval_split_E3).1

/-- Claim C5, corrected.  Every monetary field of a returned result is a fixed
point of the rounding helper, except the three originals: originalSubtotal,
originalTax and originalTip echo the raw request values unrounded, so the
original claim fails on a request whose subtotal carries a half cent (see the
counterexample). -/
theorem claim_C5_rounding_closure (dto : CalculateSplitDto)
    (r : SplitCalculationResultDto)
    (h : SplitCalculationService.calculateSplit dto = .ok r) :
    (∀ s ∈ r.shares,
      SplitCalculationService.round s.subtotal = s.subtotal ∧
      SplitCalculationService.round s.tax = s.tax ∧
      SplitCalculationService.round s.tip = s.tip ∧
      SplitCalculationService.round s.total = s.total) ∧
    SplitCalculationService.round r.grandTotal = r.grandTotal ∧
    SplitCalculationService.round r.roundingAdjustment = r.roundingAdjustment ∧
    r.originalSubtotal = dto.subtotal ∧ r.originalTax = dto.tax.getD 0 ∧
    r.originalTip = dto.tip.getD 0 := by
  obtain ⟨-, -, rfl⟩ := (calculateSplit_ok_iff dto r).mp h
  refine ⟨?_, ?_, ?_, rfl, rfl, rfl⟩
  · intro s hs
    obtain ⟨pid, -, -, h2, h3, h4, -, h6⟩ := mem_finalShares dto hs
    obtain ⟨hcs, hct, hcp, hctot, -⟩ := shareFor_cents dto pid
    refine ⟨?_, ?_, ?_, ?_⟩
    · rw [h2]; exact SplitCalculationService.round_cents_eq hcs
    · rw [h3]; exact SplitCalculationService.round_cents_eq hct
    · rw [h4]; exact SplitCalculationService.round_cents_eq hcp
    · rcases h6 with h6 | h6
      · rw [h6]; exact SplitCalculationService.round_cents_eq hctot
      · rw [h6]
        exact SplitCalculationService.round_cents_eq
          (SplitCalculationService.IsCents.sub hctot (adjustment_isCents dto))
  · exact SplitCalculationService.round_cents_eq
      (SplitCalculationService.round_isCents _)
  · exact SplitCalculationService.round_cents_eq (adjustment_isCents dto)

/-- Claim C5 counterexample: a valid request with subtotal 10.005 is echoed
back unrounded in originalSubtotal. -/
theorem claim_C5_counterexample :
    SplitCalculationService.calculateSplit dtoRawSubtotal = .ok resRawSubtotal ∧
    resRawSubtotal.originalSubtotal ≠
      SplitCalculationService.round resRawSubtotal.originalSubtotal := by
  refine ⟨eval_split_RS, ?_⟩
  have r1 : SplitCalculationService.round (2001/200) = ((1001 : ℤ) : ℚ)/100 :=
    SplitCalculationService.round_concrete _ 1001 (by norm_num) (by norm_num)
  show (2001 : ℚ)/200 ≠ SplitCalculationService.round (2001/200)
  rw [r1]
  norm_num

/-- Claim C5 witness: the grand total of the half-cent-subtotal request is a
fixed point of rounding. -/
theorem claim_C5_witness :
    SplitCalculationService.round resRawSubtotal.grandTotal =
      resRawSubtotal.grandTotal :=
  (claim_C5_rounding_closure dtoRawSubtotal resRawSubtotal eval_split_RS).2.1

/-- Claim C6, confirmed.  Every returned share's tip equals the claimed
formula: round(tip / participantCount) under the Equal mode, the proportional
formula round(tip x participantSubtotal / subtotal) under Proportional with a
nonzero subtotal, and the equal-split fallback when the subtotal is zero; the
effective mode defaults to Equal for equal splits and Proportional for the
other three strategies. -/
theorem claim_C6_tip (dto : CalculateSplitDto) (r : SplitCalculationResultDto)
    (h : SplitCalculationService.calculateSplit dto = .ok r) :
    ∀ s ∈ r.shares, s.tip = tipShareSpec dto s.subtotal := by
  obtain ⟨-, -, rfl⟩ := (calculateSplit_ok_iff dto r).mp h
  intro s hs
  obtain ⟨pid, -, -, h2, -, h4, -, -⟩ := mem_finalShares dto hs
  rw [h4, shareFor_tip, distributeTip_eq_spec, ← h2]

/-- Claim C6 witness: the tip formula instantiated on the first share of
scenario 1. -/
theorem claim_C6_witness :
    (shareScenario1 "user1").tip =
      tipShareSpec dtoScenario1 (shareScenario1 "user1").subtotal :=
  claim_C6_tip dtoScenario1 resScenario1 eval_split_S1 (shareScenario1 "user1")
    (by simp [resScenario1])

/-- Claim C7, confirmed.  Every returned share's tax equals
round(tax x participantSubtotal / subtotal), is zero whenever the tax or the
subtotal is zero, and any two shares' taxes are cross-multiplicatively
proportional to their subtotals within a half-cent-per-share tolerance. -/
theorem claim_C7_tax (dto : CalculateSplitDto) (r : SplitCalculationResultDto)
    (h : SplitCalculationService.calculateSplit dto = .ok r) :
    ∀ s ∈ r.shares,
      s.tax = SplitCalculationService.round
        (dto.tax.getD 0 * s.subtotal / dto.subtotal) ∧
      ((dto.tax.getD 0 = 0 ∨ dto.subtotal = 0) → s.tax = 0) ∧
      ∀ s' ∈ r.shares, |s.tax * s'.subtotal - s'.tax * s.subtotal| ≤
        (|s.subtotal| + |s'.subtotal|) / 200 := by
  obtain ⟨-, -, rfl⟩ := (calculateSplit_ok_iff dto r).mp h
  have key : ∀ s ∈ SplitCalculationService.finalShares dto,
      s.tax = SplitCalculationService.distributeTax s.subtotal dto.subtotal
        (dto.tax.getD 0) := by
    intro s hs
    obtain ⟨pid, -, -, h2, h3, -, -, -⟩ := mem_finalShares dto hs
    rw [h3, shareFor_tax, ← h2]
  intro s hs
  refine ⟨?_, ?_, ?_⟩
  · rw [key s hs, distributeTax_eq_formula]
  · intro hz; rw [key s hs]; exact distributeTax_zero hz
  · intro s' hs'
    rw [key s hs, key s' hs']
    set t := dto.tax.getD 0
    set b := dto.subtotal
    set dA := SplitCalculationService.distributeTax s.subtotal b t with hdA
    set dB := SplitCalculationService.distributeTax s'.subtotal b t with hdB
    have hA : |dA - t * s.subtotal / b| ≤ 1/200 := distributeTax_approx _ _ _
    have hB : |dB - t * s'.subtotal / b| ≤ 1/200 := distributeTax_approx _ _ _
    have heq : dA * s'.subtotal - dB * s.subtotal =
        (dA - t * s.subtotal / b) * s'.subtotal -
          (dB - t * s'.subtotal / b) * s.subtotal := by ring
    rw [heq]
    have htri : |(dA - t * s.subtotal / b) * s'.subtotal -
        (dB - t * s'.subtotal / b) * s.subtotal| ≤
        |(dA - t * s.subtotal / b) * s'.subtotal| +
          |(dB - t * s'.subtotal / b) * s.subtotal| := by
      rw [sub_eq_add_neg]
      exact (abs_add _ _).trans (by rw [abs_neg])
    have h1 : |(dA - t * s.subtotal / b) * s'.subtotal| ≤
        1/200 * |s'.subtotal| := by
      rw [abs_mul]
      exact mul_le_mul_of_nonneg_right hA (abs_nonneg _)
    have h2 : |(dB - t * s'.subtotal / b) * s.subtotal| ≤
        1/200 * |s.subtotal| := by
      rw [abs_mul]
      exact mul_le_mul_of_nonneg_right hB (abs_nonneg _)
    linarith

/-- Claim C7 witness: the tax formula instantiated on the first share of the
itemized scenario. -/
theorem claim_C7_witness :
    shareItemized1.tax = SplitCalculationService.round
      (dtoItemized.tax.getD 0 * shareItemized1.subtotal / dtoItemized.subtotal) :=
  (claim_C7_tax dtoItemized resItemized eval_split_IT shareItemized1
    (by simp [resItemized])).1

lemma flatten_nil_of_all {α : Type} (L : List (List α)) (h : ∀ l ∈ L, l = []) :
    L.flatten = [] := by
  induction L with
  | nil => rfl
  | cons a rest ih =>
    rw [List.flatten_cons, h a (by simp), ih (fun l hl => h l (by simp [hl]))]
    rfl

/-- Claim C10, confirmed.  The returned shares list carries exactly one share
per request participant in request order, and an itemized-request participant
assigned to no item still receives a share with subtotal 0 and an empty item
list. -/
theorem claim_C10_share_order (dto : CalculateSplitDto)
    (r : SplitCalculationResultDto)
    (h : SplitCalculationService.calculateSplit dto = .ok r) :
    r.shares.map (fun s => s.participantId) = dto.participantIds ∧
    (dto.splitType = SplitType.itemized → ∀ s ∈ r.shares,
      (∀ item ∈ dto.items.getD [], s.participantId ∉ item.participantIds) →
      s.subtotal = 0 ∧ s.items = some []) := by
  obtain ⟨-, -, rfl⟩ := (calculateSplit_ok_iff dto r).mp h
  refine ⟨finalShares_ids dto, ?_⟩
  intro hst s hs hnone
  obtain ⟨pid, -, h1, h2, -, -, h5, -⟩ := mem_finalShares dto hs
  obtain rfl : pid = s.participantId := h1.symm
  have hcount : ∀ item ∈ dto.items.getD [],
      item.participantIds.count s.participantId = 0 :=
    fun item hit => List.count_eq_zero.mpr (hnone item hit)
  constructor
  · rw [h2, shareFor_subtotal]
    have hraw : participantRawSubtotal dto s.participantId = 0 := by
      unfold participantRawSubtotal
      rw [hst]
      apply List.sum_eq_zero
      intro x hx
      obtain ⟨item, hit, rfl⟩ := List.mem_map.mp hx
      rw [hcount item hit]
      norm_num
    rw [hraw, SplitCalculationService.round_zero]
  · rw [h5, shareFor_items, if_pos hst]
    have hnames : participantItemNames dto s.participantId = [] := by
      unfold participantItemNames
      apply flatten_nil_of_all
      intro l hl
      obtain ⟨item, hit, rfl⟩ := List.mem_map.mp hl
      rw [hcount item hit]
      rfl
    rw [hnames]

/-- Claim C10 witness: the shares of the itemized scenario carry the request's
participants in order. -/
theorem claim_C10_witness :
    resItemized.shares.map (fun s => s.participantId) =
      dtoItemized.participantIds :=
  (claim_C10_share_order dtoItemized resItemized eval_split_IT).1

lemma mapHas_append_left {α : Type} {m : List (String × α)} {k : String}
    (m₂ : List (String × α)) (h : mapHas m k = true) :
    mapHas (m ++ m₂) k = true := by
  unfold mapHas at h ⊢
  cases hg : mapGet m k with
  | none => rw [hg] at h; simp at h
  | some v => rw [mapGet_append_of_some m₂ hg]; rfl

namespace SplitValidator

lemma cpe_ok_inv {pids : List String} {pct : PercentageSplitDto}
    {rest : List PercentageSplitDto} {m m' : List (String × ℚ)}
    (h : checkPercentageEntries pids (pct :: rest) m = .ok m') :
    pct.participantId ∈ pids ∧ mapHas m pct.participantId = false ∧
    0 ≤ pct.percentage ∧ pct.percentage ≤ 100 ∧
    checkPercentageEntries pids rest
      (mapSet m pct.participantId pct.percentage) = .ok m' := by
  unfold checkPercentageEntries at h
  split_ifs at h with h1 h2 h3
  push_neg at h3
  exact ⟨h1, by simpa using h2, h3.1, h3.2, h⟩

lemma cpe_ok_entries {pids : List String} :
    ∀ {ps : List PercentageSplitDto} {m m' : List (String × ℚ)},
      checkPercentageEntries pids ps m = .ok m' →
      ∀ e ∈ ps, e.participantId ∈ pids ∧ 0 ≤ e.percentage ∧
        e.percentage ≤ 100 := by
  intro ps
  induction ps with
  | nil => intro m m' _ e he; simp at he
  | cons pct rest ih =>
    intro m m' h e he
    obtain ⟨hmem, -, hlo, hhi, hrec⟩ := cpe_ok_inv h
    rcases List.mem_cons.mp he with rfl | he
    · exact ⟨hmem, hlo, hhi⟩
    · exact ih hrec e he

lemma cpe_ok_map {pids : List String} :
    ∀ {ps : List PercentageSplitDto} {m m' : List (String × ℚ)},
      checkPercentageEntries pids ps m = .ok m' →
      m' = m ++ ps.map (fun e => (e.participantId, e.percentage)) := by
  intro ps
  induction ps with
  | nil =>
    intro m m' h
    unfold checkPercentageEntries at h
    injection h with h
    rw [List.map_nil, List.append_nil]
    exact h.symm
  | cons pct rest ih =>
    intro m m' h
    obtain ⟨-, hnothas, -, -, hrec⟩ := cpe_ok_inv h
    rw [mapSet_eq_append _ hnothas] at hrec
    rw [ih hrec]
    simp

lemma cpe_ok_not_has {pids : List String} :
    ∀ {ps : List PercentageSplitDto} {m m' : List (String × ℚ)},
      checkPercentageEntries pids ps m = .ok m' →
      ∀ e ∈ ps, mapHas m e.participantId = false := by
  intro ps
  induction ps with
  | nil => intro m m' _ e he; simp at he
  | cons pct rest ih =>
    intro m m' h e he
    obtain ⟨-, hnothas, -, -, hrec⟩ := cpe_ok_inv h
    rcases List.mem_cons.mp he with rfl | he
    · exact hnothas
    · rw [mapSet_eq_append _ hnothas] at hrec
      have := ih hrec e he
      by_cases hm : mapHas m e.participantId = true
      · rw [mapHas_append_left _ hm] at this; exact absurd this (by simp)
      · exact Bool.not_eq_true _ ▸ (by simpa using hm)

lemma cpe_ok_nodup {pids : List String} :
    ∀ {ps : List PercentageSplitDto} {m m' : List (String × ℚ)},
      checkPercentageEntries pids ps m = .ok m' →
      (ps.map (fun e => e.participantId)).Nodup := by
  intro ps
  induction ps with
  | nil => intro m m' _; simp
  | cons pct rest ih =>
    intro m m' h
    obtain ⟨-, hnothas, -, -, hrec⟩ := cpe_ok_inv h
    rw [mapSet_eq_append _ hnothas] at hrec
    refine List.nodup_cons.mpr ⟨?_, ih hrec⟩
    intro hmem
    obtain ⟨e, he, heq⟩ := List.mem_map.mp hmem
    have hfalse := cpe_ok_not_has hrec e he
    have htrue : mapHas (m ++ [(pct.participantId, pct.percentage)])
        e.participantId = true := by
      rw [heq]
      unfold mapHas
      cases hg : mapGet m pct.participantId with
      | none => rw [mapGet_append_of_none _ hg]; simp [mapGet]
      | some v => rw [mapGet_append_of_some _ hg]; rfl
    rw [htrue] at hfalse
    exact absurd hfalse (by simp)

lemma cpe_complete {pids : List String} :
    ∀ {ps : List PercentageSplitDto} {m : List (String × ℚ)},
      (∀ e ∈ ps, e.participantId ∈ pids) →
      (∀ e ∈ ps, 0 ≤ e.percentage ∧ e.percentage ≤ 100) →
      (ps.map (fun e => e.participantId)).Nodup →
      (∀ e ∈ ps, mapHas m e.participantId = false) →
      checkPercentageEntries pids ps m =
        .ok (m ++ ps.map (fun e => (e.participantId, e.percentage))) := by
  intro ps
  induction ps with
  | nil => intro m _ _ _ _; simp [checkPercentageEntries]
  | cons pct rest ih =>
    intro m hmem hrange hnodup hnothas
    unfold checkPercentageEntries
    rw [if_neg (not_not_intro (hmem pct (by simp)))]
    rw [if_neg (by simp [hnothas pct (by simp)])]
    rw [if_neg (by push_neg; exact (hrange pct (by simp)))]
    rw [mapSet_eq_append _ (hnothas pct (by simp))]
    rw [List.map_cons] at hnodup
    have hnodup' := List.nodup_cons.mp hnodup
    rw [ih (fun e he => hmem e (by simp [he]))
      (fun e he => hrange e (by simp [he])) hnodup'.2 ?_]
    · simp
    · intro e he
      have h1 := hnothas e (by simp [he])
      have hne : e.participantId ≠ pct.participantId := by
        intro hc
        exact hnodup'.1 (hc ▸ List.mem_map.mpr ⟨e, he, rfl⟩)
      unfold mapHas at h1 ⊢
      cases hg : mapGet m e.participantId with
      | none =>
        rw [mapGet_append_of_none _ hg]
        simp [mapGet, Ne.symm hne]
      | some v => rw [hg] at h1; exact absurd h1 (by simp)

lemma cpe_error_facts {pids : List String} {ps : List PercentageSplitDto}
    {m : List (String × ℚ)} {e : String}
    (h : checkPercentageEntries pids ps m = .error e)
    (hnothas : ∀ x ∈ ps, mapHas m x.participantId = false) :
    ¬ ((∀ x ∈ ps, x.participantId ∈ pids) ∧
      (∀ x ∈ ps, 0 ≤ x.percentage ∧ x.percentage ≤ 100) ∧
      (ps.map (fun x => x.participantId)).Nodup) := by
  rintro ⟨h1, h2, h3⟩
  rw [cpe_complete h1 h2 h3 hnothas] at h
  exact absurd h (by simp)

lemma checkCoverage_isOk {α : Type} (m : List (String × α)) (msg : String) :
    ∀ pids : List String, (checkCoverage m msg pids).isOk = true ↔
      ∀ pid ∈ pids, mapHas m pid = true := by
  intro pids
  induction pids with
  | nil => simp [checkCoverage, Except.isOk, Except.toBool]
  | cons pid rest ih =>
    unfold checkCoverage
    by_cases hp : mapHas m pid = true
    · rw [if_pos hp]
      simp only [ih, List.mem_cons]
      constructor
      · rintro hall x (rfl | hx)
        · exact hp
        · exact hall x hx
      · intro hall x hx; exact hall x (Or.inr hx)
    · rw [if_neg hp]
      simp only [Except.isOk, Except.toBool]
      constructor
      · intro h; exact absurd h (by simp)
      · intro hall; exact absurd (hall pid (by simp)) hp

lemma mapHas_entries {ps : List PercentageSplitDto} {pid : String} :
    mapHas (ps.map (fun e => (e.participantId, e.percentage))) pid = true ↔
      pid ∈ ps.map (fun e => e.participantId) := by
  rw [mapHas_iff_mem_keys]
  simp [List.map_map, Function.comp]

end SplitValidator

/-- Claim C8, corrected.  For a percentage request passing the basic checks,
the percentage-specific validation succeeds exactly when none of the claimed
failure conditions holds AND the request carries no items or customAmounts
payload; the original claim omitted the payload-exclusivity rejection, which
validatePercentageSplit also enforces (see the counterexample). -/
theorem claim_C8_percentage_validation (dto : CalculateSplitDto)
    (hb : SplitValidator.validateBasicRequirements dto = .ok ()) :
    (SplitValidator.validatePercentageSplit dto).isOk = true ↔
      ¬ (percMissingSpec dto ∨ percForeignSpec dto ∨ percDupSpec dto ∨
        percRangeSpec dto ∨ percSumSpec dto ∨ dto.items.isSome = true ∨
        dto.customAmounts.isSome = true) := by
  have hne : dto.participantIds ≠ [] := basic_ok_ne_nil hb
  obtain ⟨p0, prest, hpids⟩ : ∃ p0 prest, dto.participantIds = p0 :: prest := by
    cases hx : dto.participantIds with
    | nil => exact absurd hx hne
    | cons a b => exact ⟨a, b, rfl⟩
  unfold SplitValidator.validatePercentageSplit
  split
  case _ hp =>
    apply iff_of_false (by simp [Except.isOk, Except.toBool])
    apply not_not_intro
    refine Or.inl ⟨p0, by rw [hpids]; exact List.mem_cons_self _ _, ?_⟩
    intro e he
    rw [hp] at he
    simp at he
  case _ ps hp =>
    by_cases hlen : ps.length = 0
    · rw [if_pos hlen]
      have hps : ps = [] := List.length_eq_zero.mp hlen
      apply iff_of_false (by simp [Except.isOk, Except.toBool])
      apply not_not_intro
      refine Or.inl ⟨p0, by rw [hpids]; exact List.mem_cons_self _ _, ?_⟩
      intro e he
      rw [hp, hps] at he
      simp at he
    · rw [if_neg hlen]
      by_cases hpay : dto.items.isSome = true ∨ dto.customAmounts.isSome = true
      · rw [if_pos (by exact_mod_cast hpay)]
        apply iff_of_false (by simp [Except.isOk, Except.toBool])
        apply not_not_intro
        rcases hpay with hpay | hpay
        · exact Or.inr (Or.inr (Or.inr (Or.inr (Or.inr (Or.inl hpay)))))
        · exact Or.inr (Or.inr (Or.inr (Or.inr (Or.inr (Or.inr hpay)))))
      · rw [if_neg (by exact_mod_cast hpay)]
        push_neg at hpay
        split
        case _ e hcheck =>
          apply iff_of_false (by simp [Except.isOk, Except.toBool])
          apply not_not_intro
          have hfacts := SplitValidator.cpe_error_facts hcheck
            (fun x _ => by simp [mapHas, mapGet])
          by_cases hforeign : ∀ x ∈ ps, x.participantId ∈ dto.participantIds
          · by_cases hrange : ∀ x ∈ ps, 0 ≤ x.percentage ∧ x.percentage ≤ 100
            · have hdup : ¬ (ps.map (fun x => x.participantId)).Nodup :=
                fun hnd => hfacts ⟨hforeign, hrange, hnd⟩
              refine Or.inr (Or.inr (Or.inl ?_))
              unfold percDupSpec
              rw [hp]
              simpa using hdup
            · push_neg at hrange
              obtain ⟨x, hx, hxr⟩ := hrange
              refine Or.inr (Or.inr (Or.inr (Or.inl ?_)))
              unfold percRangeSpec
              rw [hp]
              refine ⟨x, by simpa using hx, ?_⟩
              by_cases h0 : 0 ≤ x.percentage
              · exact Or.inr (hxr h0)
              · exact Or.inl (not_le.mp h0)
          · push_neg at hforeign
            obtain ⟨x, hx, hxmem⟩ := hforeign
            refine Or.inr (Or.inl ?_)
            unfold percForeignSpec
            rw [hp]
            exact ⟨x, by simpa using hx, hxmem⟩
        case _ pmap hcheck =>
          have hmap : pmap = ps.map (fun e => (e.participantId, e.percentage)) := by
            have h := SplitValidator.cpe_ok_map hcheck
            simpa using h
          have hvals : (pmap.map (fun p => p.2)).sum =
              (ps.map (fun e => e.percentage)).sum := by
            rw [hmap, List.map_map]
            rfl
          by_cases hsum : 1/100 < |(pmap.map (fun p => p.2)).sum - 100|
          · rw [if_pos hsum]
            apply iff_of_false (by simp [Except.isOk, Except.toBool])
            apply not_not_intro
            refine Or.inr (Or.inr (Or.inr (Or.inr (Or.inl ?_))))
            unfold percSumSpec
            rw [hp]
            simp only [Option.getD_some]
            rw [← hvals]
            exact hsum
          · rw [if_neg hsum]
            rw [SplitValidator.checkCoverage_isOk]
            constructor
            · intro hcov hdisj
              rcases hdisj with hmiss | hforeign | hdup | hrange | hsum2 | hpay1 | hpay2
              · obtain ⟨pid, hpid, hmiss⟩ := hmiss
                rw [hp] at hmiss
                simp only [Option.getD_some] at hmiss
                have hhas := hcov pid hpid
                rw [hmap, SplitValidator.mapHas_entries] at hhas
                obtain ⟨x, hx, hxe⟩ := List.mem_map.mp hhas
                exact hmiss x hx hxe
              · obtain ⟨x, hx, hxmem⟩ := hforeign
                rw [hp] at hx
                simp only [Option.getD_some] at hx
                exact hxmem (SplitValidator.cpe_ok_entries hcheck x hx).1
              · apply hdup
                unfold percDupSpec at hdup
                rw [hp] at hdup ⊢
                simp only [Option.getD_some] at hdup ⊢
                exact absurd (SplitValidator.cpe_ok_nodup hcheck) hdup
              · obtain ⟨x, hx, hxr⟩ := hrange
                rw [hp] at hx
                simp only [Option.getD_some] at hx
                obtain ⟨-, hlo, hhi⟩ := SplitValidator.cpe_ok_entries hcheck x hx
                rcases hxr with hxr | hxr
                · linarith
                · linarith
              · unfold percSumSpec at hsum2
                rw [hp] at hsum2
                simp only [Option.getD_some] at hsum2
                rw [← hvals] at hsum2
                exact hsum hsum2
              · exact absurd hpay1 (by simp [hpay.1])
              · exact absurd hpay2 (by simp [hpay.2])
            · intro hnot
              intro pid hpid
              rw [hmap, SplitValidator.mapHas_entries]
              by_contra hmem
              apply hnot
              refine Or.inl ⟨pid, hpid, ?_⟩
              rw [hp]
              simp only [Option.getD_some]
              intro e he hee
              exact hmem (List.mem_map.mpr ⟨e, he, hee⟩)

/-- Claim C8 counterexample: a percentage request with a perfect 60/40
percentage payload that also carries an items payload is rejected although
none of the claimed failure conditions holds. -/
theorem claim_C8_counterexample :
    SplitValidator.validateBasicRequirements dtoPercPayload = .ok () ∧
    (SplitValidator.validatePercentageSplit dtoPercPayload).isOk = false ∧
    ¬ (percMissingSpec dtoPercPayload ∨ percForeignSpec dtoPercPayload ∨
      percDupSpec dtoPercPayload ∨ percRangeSpec dtoPercPayload ∨
      percSumSpec dtoPercPayload) :=
  ⟨eval_basic_PP, by rw [eval_perc_PP]; rfl, eval_specs_PP⟩

/-- Claim C8 witness: the corrected equivalence instantiated on the
well-formed 60/40 percentage request. -/
theorem claim_C8_witness :
    (SplitValidator.validatePercentageSplit dtoPercGood).isOk = true ↔
      ¬ (percMissingSpec dtoPercGood ∨ percForeignSpec dtoPercGood ∨
        percDupSpec dtoPercGood ∨ percRangeSpec dtoPercGood ∨
        percSumSpec dtoPercGood ∨ dtoPercGood.items.isSome = true ∨
        dtoPercGood.customAmounts.isSome = true) :=
  claim_C8_percentage_validation dtoPercGood eval_basic_PG

lemma except_unit_ok {x : Except String Unit} (h : x.isOk = true) : x = .ok () := by
  cases x with
  | error e => simp [Except.isOk, Except.toBool] at h
  | ok u => cases u; rfl

lemma finalShares_length (dto : CalculateSplitDto) :
    (SplitCalculationService.finalShares dto).length =
      dto.participantIds.length := by
  have h := congrArg List.length (finalShares_ids dto)
  simpa using h

lemma shareFor_perm (dto : CalculateSplitDto) (pids' : List String)
    (hlen : pids'.length = dto.participantIds.length) :
    shareFor { dto with participantIds := pids' } = shareFor dto := by
  funext pid
  obtain ⟨st, sub, tax, tip, tipd, pids, items, percs, cust⟩ := dto
  simp only at hlen
  cases st <;>
    simp [shareFor, participantRawSubtotal, participantItemNames, hlen]

lemma validateBasic_perm (dto : CalculateSplitDto) (pids' : List String)
    (hperm : dto.participantIds.Perm pids') :
    SplitValidator.validateBasicRequirements { dto with participantIds := pids' } =
      SplitValidator.validateBasicRequirements dto := by
  have h1 : pids'.length = dto.participantIds.length := hperm.length_eq.symm
  have h2 : pids'.dedup.length = dto.participantIds.dedup.length :=
    hperm.dedup.length_eq.symm
  obtain ⟨st, sub, tax, tip, tipd, pids, items, percs, cust⟩ := dto
  simp only at h1 h2
  unfold SplitValidator.validateBasicRequirements
  simp only [h1, h2]

lemma validateItem_perm {pids pids' : List String}
    (hiff : ∀ x : String, x ∈ pids' ↔ x ∈ pids) (item : ItemDto) :
    SplitValidator.validateItem pids' item =
      SplitValidator.validateItem pids item := by
  unfold SplitValidator.validateItem
  have hcond : (∃ pid ∈ item.participantIds, pid ∉ pids') ↔
      (∃ pid ∈ item.participantIds, pid ∉ pids) := by
    constructor
    · rintro ⟨pid, hp, hn⟩
      exact ⟨pid, hp, fun hc => hn ((hiff pid).mpr hc)⟩
    · rintro ⟨pid, hp, hn⟩
      exact ⟨pid, hp, fun hc => hn ((hiff pid).mp hc)⟩
  simp only [hcond]

lemma validateItems_perm {pids pids' : List String}
    (hiff : ∀ x : String, x ∈ pids' ↔ x ∈ pids) (items : List ItemDto) :
    SplitValidator.validateItems pids' items =
      SplitValidator.validateItems pids items := by
  induction items with
  | nil => rfl
  | cons item rest ih =>
    unfold SplitValidator.validateItems
    rw [validateItem_perm hiff item, ih]

lemma validateItemized_perm (dto : CalculateSplitDto) (pids' : List String)
    (hperm : dto.participantIds.Perm pids') :
    SplitValidator.validateItemizedSplit { dto with participantIds := pids' } =
      SplitValidator.validateItemizedSplit dto := by
  have hiff : ∀ x : String, x ∈ pids' ↔ x ∈ dto.participantIds :=
    fun x => (hperm.mem_iff).symm
  obtain ⟨st, sub, tax, tip, tipd, pids, items, percs, cust⟩ := dto
  unfold SplitValidator.validateItemizedSplit
  cases items with
  | none => rfl
  | some its =>
    simp only
    rw [validateItems_perm hiff its]

lemma checkPercentageEntries_perm {pids pids' : List String}
    (hiff : ∀ x : String, x ∈ pids' ↔ x ∈ pids) :
    ∀ (ps : List PercentageSplitDto) (m : List (String × ℚ)),
      SplitValidator.checkPercentageEntries pids' ps m =
        SplitValidator.checkPercentageEntries pids ps m := by
  intro ps
  induction ps with
  | nil => intro m; rfl
  | cons pct rest ih =>
    intro m
    unfold SplitValidator.checkPercentageEntries
    have hcond : (pct.participantId ∉ pids') ↔ (pct.participantId ∉ pids) :=
      not_congr (hiff pct.participantId)
    simp only [hcond]
    rw [ih]

lemma checkCustomEntries_perm {pids pids' : List String}
    (hiff : ∀ x : String, x ∈ pids' ↔ x ∈ pids) :
    ∀ (cs : List CustomSplitDto) (m : List (String × ℚ)),
      SplitValidator.checkCustomEntries pids' cs m =
        SplitValidator.checkCustomEntries pids cs m := by
  intro cs
  induction cs with
  | nil => intro m; rfl
  | cons c rest ih =>
    intro m
    unfold SplitValidator.checkCustomEntries
    have hcond : (c.participantId ∉ pids') ↔ (c.participantId ∉ pids) :=
      not_congr (hiff c.participantId)
    simp only [hcond]
    rw [ih]

lemma checkCoverage_perm {α : Type} (m : List (String × α)) (msg : String)
    {pids pids' : List String}
    (hiff : ∀ x : String, x ∈ pids' ↔ x ∈ pids) :
    (SplitValidator.checkCoverage m msg pids').isOk =
      (SplitValidator.checkCoverage m msg pids).isOk := by
  apply Bool.eq_iff_iff.mpr
  rw [SplitValidator.checkCoverage_isOk, SplitValidator.checkCoverage_isOk]
  constructor
  · intro hall x hx
    exact hall x ((hiff x).mpr hx)
  · intro hall x hx
    exact hall x ((hiff x).mp hx)

lemma validatePerc_perm (dto : CalculateSplitDto) (pids' : List String)
    (hperm : dto.participantIds.Perm pids') :
    (SplitValidator.validatePercentageSplit { dto with participantIds := pids' }).isOk =
      (SplitValidator.validatePercentageSplit dto).isOk := by
  have hiff : ∀ x : String, x ∈ pids' ↔ x ∈ dto.participantIds :=
    fun x => (hperm.mem_iff).symm
  obtain ⟨st, sub, tax, tip, tipd, pids, items, percs, cust⟩ := dto
  unfold SplitValidator.validatePercentageSplit
  cases percs with
  | none => rfl
  | some ps =>
    simp only
    rw [checkPercentageEntries_perm hiff ps []]
    by_cases hlen : ps.length = 0
    · rw [if_pos hlen, if_pos hlen]
    · rw [if_neg hlen, if_neg hlen]
      by_cases hpay : items.isSome = true ∨ cust.isSome = true
      · rw [if_pos hpay, if_pos hpay]
      · rw [if_neg hpay, if_neg hpay]
        cases hch : SplitValidator.checkPercentageEntries pids ps [] with
        | error e => rfl
        | ok m =>
          simp only
          by_cases hs : 1/100 < |(m.map (fun p => p.2)).sum - 100|
          · rw [if_pos hs, if_pos hs]
          · rw [if_neg hs, if_neg hs]
            exact checkCoverage_perm m _ hiff

lemma validateCustom_perm (dto : CalculateSplitDto) (pids' : List String)
    (hperm : dto.participantIds.Perm pids') :
    (SplitValidator.validateCustomSplit { dto with participantIds := pids' }).isOk =
      (SplitValidator.validateCustomSplit dto).isOk := by
  have hiff : ∀ x : String, x ∈ pids' ↔ x ∈ dto.participantIds :=
    fun x => (hperm.mem_iff).symm
  obtain ⟨st, sub, tax, tip, tipd, pids, items, percs, cust⟩ := dto
  unfold SplitValidator.validateCustomSplit
  cases cust with
  | none => rfl
  | some cs =>
    simp only
    rw [checkCustomEntries_perm hiff cs []]
    by_cases hlen : cs.length = 0
    · rw [if_pos hlen, if_pos hlen]
    · rw [if_neg hlen, if_neg hlen]
      by_cases hpay : items.isSome = true ∨ percs.isSome = true
      · rw [if_pos hpay, if_pos hpay]
      · rw [if_neg hpay, if_neg hpay]
        cases hch : SplitValidator.checkCustomEntries pids cs [] with
        | error e => rfl
        | ok m =>
          simp only
          by_cases hs : 1/100 < |(m.map (fun p => p.2)).sum - sub|
          · rw [if_pos hs, if_pos hs]
          · rw [if_neg hs, if_neg hs]
            exact checkCoverage_perm m _ hiff

lemma validate_perm (dto : CalculateSplitDto) (pids' : List String)
    (hperm : dto.participantIds.Perm pids')
    (hv : SplitValidator.validate dto = .ok ()) :
    SplitValidator.validate { dto with participantIds := pids' } = .ok () := by
  have hbasic := validate_basic_ok hv
  unfold SplitValidator.validate at hv ⊢
  rw [validateBasic_perm dto pids' hperm, hbasic]
  rw [hbasic] at hv
  cases hst : dto.splitType with
  | equal =>
    rw [hst] at hv
    show SplitValidator.validateEqualSplit { dto with participantIds := pids' } = .ok ()
    unfold SplitValidator.validateEqualSplit at hv ⊢
    exact hv
  | itemized =>
    rw [hst] at hv
    show SplitValidator.validateItemizedSplit { dto with participantIds := pids' } = .ok ()
    rw [validateItemized_perm dto pids' hperm]
    exact hv
  | percentage =>
    rw [hst] at hv
    have hv2 : SplitValidator.validatePercentageSplit dto = .ok () := hv
    show SplitValidator.validatePercentageSplit { dto with participantIds := pids' } = .ok ()
    apply except_unit_ok
    rw [validatePerc_perm dto pids' hperm, hv2]
    rfl
  | custom =>
    rw [hst] at hv
    have hv2 : SplitValidator.validateCustomSplit dto = .ok () := hv
    show SplitValidator.validateCustomSplit { dto with participantIds := pids' } = .ok ()
    apply except_unit_ok
    rw [validateCustom_perm dto pids' hperm, hv2]
    rfl

lemma strategyShares_permuted (dto : CalculateSplitDto) (pids' : List String)
    (hperm : dto.participantIds.Perm pids') :
    SplitCalculationService.strategyShares { dto with participantIds := pids' } =
      pids'.map (shareFor dto) := by
  rw [strategyShares_eq_map]
  show pids'.map (shareFor { dto with participantIds := pids' }) = _
  rw [shareFor_perm dto pids' hperm.length_eq.symm]

lemma strategyShares_perm_of_perm (dto : CalculateSplitDto)
    (pids' : List String) (hperm : dto.participantIds.Perm pids') :
    (SplitCalculationService.strategyShares
      { dto with participantIds := pids' }).Perm
      (SplitCalculationService.strategyShares dto) := by
  rw [strategyShares_permuted dto pids' hperm, strategyShares_eq_map]
  exact (hperm.map (shareFor dto)).symm

lemma adjustment_perm (dto : CalculateSplitDto) (pids' : List String)
    (hperm : dto.participantIds.Perm pids') :
    SplitCalculationService.adjustment { dto with participantIds := pids' } =
      SplitCalculationService.adjustment dto := by
  unfold SplitCalculationService.adjustment
  rw [SplitCalculationService.sumTotals_perm
    (strategyShares_perm_of_perm dto pids' hperm)]
  rfl

lemma validateResult_perm (dto : CalculateSplitDto) (pids' : List String)
    (hlen : pids'.length = dto.participantIds.length) (ct adj : ℚ) :
    SplitValidator.validateResult { dto with participantIds := pids' } ct adj =
      SplitValidator.validateResult dto ct adj := by
  obtain ⟨st, sub, tax, tip, tipd, pids, items, percs, cust⟩ := dto
  simp only at hlen
  unfold SplitValidator.validateResult
  simp only [hlen]

/-- Claim C9, corrected.  Permuting the participantIds list (all other fields
unchanged) preserves success, the grand total, the rounding adjustment, the
number of shares and every participant's subtotal, tax, tip and items; the
original claim also asserted that every participant keeps the same total,
which is false because the one-cent rounding correction targets the first
share holding the largest total, an order-dependent choice (see the
counterexample). -/
theorem claim_C9_permutation (dto : CalculateSplitDto) (pids' : List String)
    (hperm : dto.participantIds.Perm pids') (r : SplitCalculationResultDto)
    (h : SplitCalculationService.calculateSplit dto = .ok r) :
    (SplitCalculationService.calculateSplit
      { dto with participantIds := pids' }).isOk = true ∧
    ∀ r', SplitCalculationService.calculateSplit
        { dto with participantIds := pids' } = .ok r' →
      r'.grandTotal = r.grandTotal ∧
      r'.roundingAdjustment = r.roundingAdjustment ∧
      r'.shares.length = r.shares.length ∧
      ∀ s ∈ r.shares, ∀ s' ∈ r'.shares, s.participantId = s'.participantId →
        s.subtotal = s'.subtotal ∧ s.tax = s'.tax ∧ s.tip = s'.tip ∧
          s.items = s'.items := by
  obtain ⟨hv, hres, rfl⟩ := (calculateSplit_ok_iff dto r).mp h
  have hne : dto.participantIds ≠ [] := validate_ok_ne_nil hv
  have hne' : pids' ≠ [] := by
    intro hnil
    apply hne
    have hlen := hperm.length_eq
    rw [hnil] at hlen
    exact List.length_eq_zero.mp hlen
  have hadj := adjustment_perm dto pids' hperm
  have hsum : SplitCalculationService.sumTotals
      (SplitCalculationService.finalShares { dto with participantIds := pids' }) =
      SplitCalculationService.sumTotals (SplitCalculationService.finalShares dto) := by
    rw [finalShares_sum _ (by exact hne'), finalShares_sum dto hne, hadj,
      SplitCalculationService.sumTotals_perm
        (strategyShares_perm_of_perm dto pids' hperm)]
  have hvr : SplitValidator.validateResult { dto with participantIds := pids' }
      (SplitCalculationService.sumTotals
        (SplitCalculationService.finalShares { dto with participantIds := pids' }))
      (SplitCalculationService.adjustment { dto with participantIds := pids' }) =
      .ok () := by
    rw [hsum, hadj, validateResult_perm dto pids' hperm.length_eq.symm]
    exact hres
  have hok' := (calculateSplit_ok_iff { dto with participantIds := pids' }
    _).mpr ⟨validate_perm dto pids' hperm hv, hvr, rfl⟩
  constructor
  · rw [hok']; rfl
  · intro r' hr'
    obtain ⟨-, -, rfl⟩ :=
      (calculateSplit_ok_iff { dto with participantIds := pids' } r').mp hr'
    refine ⟨rfl, hadj, ?_, ?_⟩
    · rw [finalShares_length, finalShares_length]
      exact hperm.length_eq.symm
    · intro s hs s' hs' hid
      obtain ⟨pid, -, h1, h2, h3, h4, h5, -⟩ := mem_finalShares dto hs
      obtain ⟨pid2, -, h1', h2', h3', h4', h5', -⟩ :=
        mem_finalShares { dto with participantIds := pids' } hs'
      have hpid : pid2 = pid := by rw [← h1, ← h1', hid]
      have hsf : shareFor { dto with participantIds := pids' } = shareFor dto :=
        shareFor_perm dto pids' hperm.length_eq.symm
      refine ⟨?_, ?_, ?_, ?_⟩
      · rw [h2, h2', hsf, hpid]
      · rw [h3, h3', hsf, hpid]
      · rw [h4, h4', hsf, hpid]
      · rw [h5, h5', hsf, hpid]

/-- Claim C9 counterexample: in the three-way equal split of 100, swapping the
first two participants moves the one-cent correction: user1 is charged 33.34
under one order and 33.33 under the other. -/
theorem claim_C9_counterexample :
    SplitCalculationService.calculateSplit dtoEqual3 = .ok resEqual3 ∧
    SplitCalculationService.calculateSplit dtoEqual3P = .ok resEqual3P ∧
    dtoEqual3.participantIds.Perm dtoEqual3P.participantIds ∧
    shareEqual3Adj "user1" ∈ resEqual3.shares ∧
    (shareEqual3Adj "user1").participantId = "user1" ∧
    shareEqual3 "user1" ∈ resEqual3P.shares ∧
    (shareEqual3 "user1").participantId = "user1" ∧
    (shareEqual3Adj "user1").total ≠ (shareEqual3 "user1").total := by
  refine ⟨eval_split_E3, eval_split_E3P, ?_, by simp [resEqual3], rfl,
    by simp [resEqual3P], rfl, by norm_num [shareEqual3Adj, shareEqual3]⟩
  exact List.Perm.swap "user2" "user1" ["user3"]

/-- Claim C9 witness: the permuted three-way equal split also succeeds. -/
theorem claim_C9_witness :
    (SplitCalculationService.calculateSplit
      { dtoEqual3 with participantIds := ["user2", "user1", "user3"] }).isOk =
      true :=
  (claim_C9_permutation dtoEqual3 ["user2", "user1", "user3"]
    (List.Perm.swap "user2" "user1" ["user3"]) resEqual3 eval_split_E3).1

end StellarSplit
